import Mathlib

/-!
Verification of the Multi-Agent-RFP-Orchestrator agent pipeline.

This file gives a shallow embedding, in Lean, of the pieces of the backend
that the checked claims talk about:

* `app/agents/utils.py` (`parse_json_response`) together with a model of
  Python's `json` module restricted to exact decimal numbers: JSON numbers are
  kept as `mantissa / 10 ^ exponent` (no IEEE floats, which are not statable
  here; every concrete input used below is exact in binary64 as well).
* `app/core/cache.py` (`TTLCache`).
* `app/agents/rfp_graph.py`: the node functions, the edge selectors and the
  wiring actually compiled into `app = workflow.compile()`.  LLM calls and
  retrieval calls are suspension points whose results come from an explicit
  `Oracle`; everything after the call returns is translated from the source.
* `app/agents/risk_sentinel.py` (`risk_audit`) including the dynamic typing of
  the values coming back from the LLM JSON (a `JValue`), the skill override of
  `skills/risk_score_calculator/impl.py`, and the exception flow (a crash in
  the issue filter is caught by the outer handler, a crash inside the skill
  block only by the skill handler).
* `app/agents/nodes/grader.py` (`_grade_documents_node`, the batched grader
  with the data-heavy safety net).
* `app/agents/quant.py` (`generate_chart`, validation and value coercion).
* `app/api/response_builder.py` (`build_query_response`).

Known deliberate modelling choices (each noted again at its definition):
strings are sequences of unicode scalar values, lowercase conversion is the
ASCII one, `int()` / `float()` accept no underscores and no `inf`/`nan`, and
JSON rendering uses the default Python separators with raw (non-`\uXXXX`)
output for characters `≥ 0x20`.
-/

namespace RFP

/-! ### Python string helpers -/

/-- Characters considered whitespace by Python's `str.strip` (ASCII range). -/
def isPySpace (c : Char) : Bool :=
  (c == ' ' || c == '\t') || (c == '\n' || c == '\r') || (c == '\x0b' || c == '\x0c')

/-- Whitespace skipped by Python's `json` scanner (RFC 8259 set). -/
def isJsWs (c : Char) : Bool :=
  (c == ' ' || c == '\t') || (c == '\n' || c == '\r')

/-- Drop leading characters satisfying `p`. -/
def dropLeading (p : Char → Bool) : List Char → List Char
  | [] => []
  | c :: cs => if p c then dropLeading p cs else c :: cs

/-- Drop trailing characters satisfying `p`. -/
def dropTrailing (p : Char → Bool) (l : List Char) : List Char :=
  (dropLeading p l.reverse).reverse

/-- Python `str.strip()` on a character list. -/
def pyStripL (l : List Char) : List Char :=
  dropTrailing isPySpace (dropLeading isPySpace l)

/-- Python `str.strip()`. -/
def pyStrip (s : String) : String := ⟨pyStripL s.toList⟩

/-- Python `str.lower()`.  Modelled with the ASCII case map; the claims only
evaluate it on ASCII tokens. -/
def pyLower (s : String) : String := ⟨s.toList.map Char.toLower⟩

/-- Does `pat` occur as a prefix of `l`? -/
def prefixB : List Char → List Char → Bool
  | [], _ => true
  | _ :: _, [] => false
  | p :: ps, c :: cs => p == c && prefixB ps cs

/-- Does `pat` occur as a substring of `l`?  (Python `pat in s`; the empty
pattern is contained in everything, as in Python.) -/
def containsL (l pat : List Char) : Bool :=
  match l with
  | [] => prefixB pat []
  | _ :: cs => prefixB pat l || containsL cs pat

/-- Python `pat in s` on strings. -/
def containsSub (s pat : String) : Bool := containsL s.toList pat.toList

/-- Python `str.startswith`. -/
def pyStartsWith (s pat : String) : Bool := prefixB pat.toList s.toList

/-- Decimal digit test. -/
def isDig (c : Char) : Bool := 48 ≤ c.toNat && c.toNat ≤ 57

/-- Split off the longest leading run of decimal digits. -/
def digitSpan : List Char → List Char × List Char
  | [] => ([], [])
  | c :: cs =>
      if isDig c then
        let (ds, r) := digitSpan cs
        (c :: ds, r)
      else ([], c :: cs)

/-- Numeric value of a digit run (most significant first). -/
def digitsVal (ds : List Char) : Nat :=
  ds.foldl (fun a c => a * 10 + (c.toNat - '0'.toNat)) 0

/-- Python `int(s)` on an already-stripped string: optional sign then a
nonempty digit run.  (Underscore separators are not modelled.) -/
def pyIntOfString (s : String) : Option Int :=
  let l := s.toList
  let neg := l.head? == some '-'
  let rest := if l.head? == some '-' || l.head? == some '+' then l.tail else l
  match digitSpan rest with
  | ([], _) => none
  | (ds, []) => some ((if neg then -1 else 1) * (digitsVal ds : Int))
  | (_, _ :: _) => none

/-- Python `float(s)` on an already-stripped string, as an exact rational:
optional sign, digits and/or a decimal point (at least one digit overall),
optional exponent.  (`inf`, `nan` and underscores are not modelled.) -/
def pyFloatOfString (s : String) : Option ℚ :=
  let l := s.toList
  let sgn : ℚ := if l.head? == some '-' then -1 else 1
  let r0 := if l.head? == some '-' || l.head? == some '+' then l.tail else l
  let (intDs, r1) := digitSpan r0
  let (fracDs, r2) := if r1.head? == some '.' then digitSpan r1.tail else ([], r1)
  if intDs.isEmpty && fracDs.isEmpty then none
  else
    let mant : ℚ := mkRat (digitsVal (intDs ++ fracDs)) (10 ^ fracDs.length)
    if r2.head? == some 'e' || r2.head? == some 'E' then
      let r3 := r2.tail
      let esgn := r3.head? == some '-'
      let r4 := if r3.head? == some '-' || r3.head? == some '+' then r3.tail else r3
      match digitSpan r4 with
      | (eds, []) =>
          if eds.isEmpty then none
          else if esgn then some (sgn * mant * mkRat 1 (10 ^ digitsVal eds))
          else some (sgn * mant * mkRat ((10 ^ digitsVal eds : Nat) : Int) 1)
      | _ => none
    else if r2.isEmpty then some (sgn * mant)
    else none

/-- Fuel-bounded digit expansion (structural, so concrete values reduce). -/
def natCharsF : Nat → Nat → List Char
  | 0, _ => ['0']
  | fuel + 1, n =>
      if n < 10 then [Char.ofNat ('0'.toNat + n)]
      else natCharsF fuel (n / 10) ++ [Char.ofNat ('0'.toNat + n % 10)]

/-- Decimal digit characters of `n`, most significant first (`"0"` for zero). -/
def natChars (n : Nat) : List Char := natCharsF n n

/-- Python `round(x, 2)` on an exact rational: round half to even at two
decimal places. -/
def round2 (q : ℚ) : ℚ :=
  let x := q * 100
  let n := x.floor
  let r := x - n
  let n' := if r < 1 / 2 then n else if r > 1 / 2 then n + 1
            else if n % 2 = 0 then n else n + 1
  (n' : ℚ) / 100

/-- Python `repr` of a nonnegative float holding an exact two-decimal value:
an integral value prints with a trailing `.0`. -/
def qRepr2 (q : ℚ) : String :=
  let n := (q * 100).floor.toNat
  let ip := natChars (n / 100)
  let f := n % 100
  if f = 0 then ⟨ip ++ ['.', '0']⟩
  else if f % 10 = 0 then ⟨ip ++ ['.', Char.ofNat ('0'.toNat + f / 10)]⟩
  else ⟨ip ++ ['.', Char.ofNat ('0'.toNat + f / 10), Char.ofNat ('0'.toNat + f % 10)]⟩

/-! ### JSON values (model of what `json.loads` can hand back)

Numbers are kept exactly as `mantissa / 10 ^ exponent`, which loses no
information for the decimal literals the renderer emits.  Objects keep their
key/value pairs as parsed; the Python `dict` view (last value wins, first
occurrence order) is provided by `jGet` / `jKeys`. -/

inductive JValue where
  | jnull : JValue
  | jbool : Bool → JValue
  | jnum : Int → Nat → JValue
  | jstr : String → JValue
  | jarr : List JValue → JValue
  | jobj : List (String × JValue) → JValue
deriving Inhabited

namespace JValue

/-- Python truthiness of a decoded JSON value. -/
def truthy : JValue → Bool
  | jnull => false
  | jbool b => b
  | jnum m _ => m != 0
  | jstr s => !s.toList.isEmpty
  | jarr l => !l.isEmpty
  | jobj l => !l.isEmpty

/-- Python `dict.get k default`: the value of the last pair with key `k`. -/
def jGet (l : List (String × JValue)) (k : String) (dflt : JValue) : JValue :=
  match l.reverse.find? (fun kv => kv.1 == k) with
  | some kv => kv.2
  | none => dflt

/-- Python `k in dict`. -/
def jHasKey (l : List (String × JValue)) (k : String) : Bool :=
  l.any (fun kv => kv.1 == k)

/-- Python `dict` key iteration order: first occurrence of each key. -/
def jKeys (l : List (String × JValue)) : List String :=
  (l.map Prod.fst).eraseDups

end JValue

open JValue

attribute [local semireducible] Rat.mul Rat.add Rat.sub Rat.inv

/-! ### Rendering (model of `json.dumps`, default separators, raw non-ASCII) -/

/-- Hex digit character (lowercase). -/
def hexChar (n : Nat) : Char :=
  Char.ofNat (if n < 10 then 48 + n else 87 + n)

/-- One JSON-escaped character of a rendered string. -/
def escChar (c : Char) : List Char :=
  if c == '"' then ['\\', '"']
  else if c == '\\' then ['\\', '\\']
  else if c == '\n' then ['\\', 'n']
  else if c == '\t' then ['\\', 't']
  else if c == '\r' then ['\\', 'r']
  else if c == '\x08' then ['\\', 'b']
  else if c == '\x0c' then ['\\', 'f']
  else if c.toNat < 0x20 then
    ['\\', 'u', '0', '0', hexChar (c.toNat / 16), hexChar (c.toNat % 16)]
  else [c]

/-- A rendered string literal: quote, escaped body, quote. -/
def renderStr (s : String) : List Char :=
  '"' :: (s.toList.flatMap escChar ++ ['"'])

/-- A rendered number: the mantissa's digits with a decimal point `e` places
from the right (zero-padded so the integer part is nonempty). -/
def renderNum (m : Int) (e : Nat) : List Char :=
  let ds := natChars m.natAbs
  let sign : List Char := if m < 0 then ['-'] else []
  if e = 0 then sign ++ ds
  else
    let padded := List.replicate (e + 1 - ds.length) '0' ++ ds
    sign ++ padded.take (padded.length - e) ++ '.' :: padded.drop (padded.length - e)

mutual

/-- Model of `json.dumps` (default `", "` / `": "` separators). -/
def render : JValue → List Char
  | .jnull => ['n', 'u', 'l', 'l']
  | .jbool true => ['t', 'r', 'u', 'e']
  | .jbool false => ['f', 'a', 'l', 's', 'e']
  | .jnum m e => renderNum m e
  | .jstr s => renderStr s
  | .jarr [] => ['[', ']']
  | .jarr (v :: vs) => '[' :: (render v ++ renderArrTail vs) ++ [']']
  | .jobj [] => ['{', '}']
  | .jobj (kv :: kvs) =>
      '{' :: (renderStr kv.1 ++ ':' :: ' ' :: render kv.2 ++ renderObjTail kvs) ++ ['}']

def renderArrTail : List JValue → List Char
  | [] => []
  | v :: vs => ',' :: ' ' :: render v ++ renderArrTail vs

def renderObjTail : List (String × JValue) → List Char
  | [] => []
  | kv :: kvs => ',' :: ' ' :: renderStr kv.1 ++ ':' :: ' ' :: render kv.2 ++ renderObjTail kvs

end

/-- `json.dumps` as a string. -/
def dumps (v : JValue) : String := ⟨render v⟩

/-! ### Parsing (model of `json.loads`) -/

/-- Skip RFC 8259 whitespace. -/
def skipJsWs : List Char → List Char
  | [] => []
  | c :: cs => if isJsWs c then skipJsWs cs else c :: cs

/-- Value of a hex digit character. -/
def hexVal (c : Char) : Option Nat :=
  let n := c.toNat
  if 48 ≤ n && n ≤ 57 then some (n - 48)
  else if 97 ≤ n && n ≤ 102 then some (n - 97 + 10)
  else if 65 ≤ n && n ≤ 70 then some (n - 65 + 10)
  else none

/-- The inverse of a single-character escape. -/
def unescChar : Char → Option Char
  | 'n' => some '\n'
  | 't' => some '\t'
  | 'r' => some '\r'
  | 'b' => some '\x08'
  | 'f' => some '\x0c'
  | '/' => some '/'
  | '"' => some '"'
  | '\\' => some '\\'
  | _ => none

/-- Read one `\uXXXX` tail (the four hex digits) after `\u`. -/
def readHex4 : List Char → Option (Char × List Char)
  | a :: b :: c :: d :: r =>
      match hexVal a, hexVal b, hexVal c, hexVal d with
      | some va, some vb, some vc, some vd =>
          some (Char.ofNat (((va * 16 + vb) * 16 + vc) * 16 + vd), r)
      | _, _, _, _ => none
  | _ => none

/-- Fuel-bounded reader of a string body (structural, so concrete inputs
reduce); each step consumes at least one input character, so `l.length` fuel
always suffices. -/
def readStrF (acc : List Char) : Nat → List Char → Option (String × List Char)
  | 0, _ => none
  | fuel + 1, l =>
      match l with
      | [] => none
      | c :: r =>
          if c == '"' then some (⟨acc.reverse⟩, r)
          else if c == '\\' then
            match r with
            | [] => none
            | e :: r' =>
                if e == 'u' then
                  match readHex4 r' with
                  | some (ch, r'') => readStrF (ch :: acc) fuel r''
                  | none => none
                else
                  match unescChar e with
                  | some ch => readStrF (ch :: acc) fuel r'
                  | none => none
          else readStrF (c :: acc) fuel r

/-- Read a string body up to the closing quote, undoing escapes. -/
def readStr (acc : List Char) (l : List Char) : Option (String × List Char) :=
  readStrF acc l.length l

/-- Read a number (sign, digits, optional fraction, optional exponent) into
mantissa/exponent form. -/
def readNum (cs : List Char) : Option (JValue × List Char) :=
  let neg := cs.head? == some '-'
  let r0 := if neg then cs.tail else cs
  match digitSpan r0 with
  | ([], _) => none
  | (intDs, r1) =>
      let hasFrac := r1.head? == some '.'
      let (fracDs, r2) := if hasFrac then digitSpan r1.tail else ([], r1)
      if hasFrac && fracDs.isEmpty then none
      else
        let mant : Int := (if neg then -1 else 1) * (digitsVal (intDs ++ fracDs) : Int)
        if r2.head? == some 'e' || r2.head? == some 'E' then
          let r3 := r2.tail
          let esgn := r3.head? == some '-'
          let r4 := if r3.head? == some '-' || r3.head? == some '+' then r3.tail else r3
          match digitSpan r4 with
          | ([], _) => none
          | (eds, r5) =>
              let x := digitsVal eds
              if esgn then some (.jnum mant (fracDs.length + x), r5)
              else if fracDs.length ≤ x then
                some (.jnum (mant * (10 : Int) ^ (x - fracDs.length)) 0, r5)
              else some (.jnum mant (fracDs.length - x), r5)
        else some (.jnum mant fracDs.length, r2)

mutual
/-- Recursive-descent JSON value reader; `fuel` only bounds nesting work and
is always given at least the input length by `loads`. -/
def readVal (fuel : Nat) (cs : List Char) : Option (JValue × List Char) :=
  match fuel with
  | 0 => none
  | fuel + 1 =>
    match skipJsWs cs with
    | [] => none
    | c :: r =>
      if c == '"' then (readStr [] r).map (fun p => (JValue.jstr p.1, p.2))
      else if c == '[' then
        let r1 := skipJsWs r
        if r1.head? == some ']' then some (.jarr [], r1.tail)
        else (readItems fuel r1).map (fun p => (JValue.jarr p.1, p.2))
      else if c == '{' then
        let r1 := skipJsWs r
        if r1.head? == some '}' then some (.jobj [], r1.tail)
        else (readPairs fuel r1).map (fun p => (JValue.jobj p.1, p.2))
      else if c == 'n' then
        if prefixB ['u', 'l', 'l'] r then some (.jnull, r.drop 3) else none
      else if c == 't' then
        if prefixB ['r', 'u', 'e'] r then some (.jbool true, r.drop 3) else none
      else if c == 'f' then
        if prefixB ['a', 'l', 's', 'e'] r then some (.jbool false, r.drop 4) else none
      else if c == '-' || isDig c then readNum (c :: r)
      else none
/-- One-or-more comma-separated array items, consuming the closing `]`. -/
def readItems (fuel : Nat) (cs : List Char) : Option (List JValue × List Char) :=
  match fuel with
  | 0 => none
  | fuel + 1 =>
    match readVal fuel cs with
    | none => none
    | some (v, r) =>
        let r1 := skipJsWs r
        if r1.head? == some ',' then
          match readItems fuel r1.tail with
          | some (vs, r'') => some (v :: vs, r'')
          | none => none
        else if r1.head? == some ']' then some ([v], r1.tail)
        else none
/-- One-or-more comma-separated object members, consuming the closing `}`. -/
def readPairs (fuel : Nat) (cs : List Char) : Option (List (String × JValue) × List Char) :=
  match fuel with
  | 0 => none
  | fuel + 1 =>
    match skipJsWs cs with
    | [] => none
    | c :: r =>
      if c == '"' then
        match readStr [] r with
        | none => none
        | some (k, r1) =>
            let r2 := skipJsWs r1
            if r2.head? == some ':' then
              match readVal fuel r2.tail with
              | none => none
              | some (v, r3) =>
                  let r4 := skipJsWs r3
                  if r4.head? == some ',' then
                    match readPairs fuel r4.tail with
                    | some (ms, r5) => some ((k, v) :: ms, r5)
                    | none => none
                  else if r4.head? == some '}' then some ([(k, v)], r4.tail)
                  else none
            else none
      else none
end

/-- Model of `json.loads`: one value, then only whitespace. -/
def loads (cs : List Char) : Option JValue :=
  match readVal (cs.length + 1) cs with
  | some (v, r) => if skipJsWs r = [] then some v else none
  | none => none

/-! ### `app/agents/utils.py`: `parse_json_response`

The fence removal matches `re.sub(r"```(?:json)?\n?", "", clean)`: every
occurrence of three backticks, greedily extended by `json` and by one newline,
is deleted, scanning left to right. -/

/-- Do the first three characters spell a fence (`str.startswith("```")`)? -/
def fenceAt (l : List Char) : Bool := prefixB ['`', '`', '`'] l

/-- Skip a literal `json` tag. -/
def dropJsonTag : List Char → List Char
  | 'j' :: 's' :: 'o' :: 'n' :: r => r
  | l => l

/-- Skip one newline. -/
def dropNl : List Char → List Char
  | '\n' :: r => r
  | l => l

/-- Fuel-bounded fence removal (structural, so concrete inputs reduce); each
step consumes at least one input character, so `l.length` fuel suffices. -/
def subFenceF : Nat → List Char → List Char
  | 0, _ => []
  | _ + 1, [] => []
  | fuel + 1, c :: r =>
      if c == '`' && r.head? == some '`' && r.tail.head? == some '`' then
        subFenceF fuel (dropNl (dropJsonTag r.tail.tail))
      else c :: subFenceF fuel r

/-- Model of `re.sub(r"```(?:json)?\n?", "", l)`: at each match of three
backticks, the greedy optional `json` tag and the greedy optional newline are
consumed too, and scanning resumes after the match. -/
def subFence (l : List Char) : List Char := subFenceF l.length l

/-- The only inputs on which the fence regex can fire mid-payload. -/
def hasTriple (l : List Char) : Bool := containsL l ['`', '`', '`']

/-- Python `str.rstrip("`")`. -/
def rstripBackticks (l : List Char) : List Char :=
  dropTrailing (fun c => c == '`') l

/-- Model of `parse_json_response` from `app/agents/utils.py` (the identical
private copies in `quant.py` and `risk_sentinel.py` are this same function). -/
def parse_json_response (response : String) : Option JValue :=
  let clean := pyStripL response.toList
  let clean :=
    if fenceAt clean then rstripBackticks (subFence clean)
    else clean
  loads clean

/-! ### `app/core/cache.py`: `TTLCache`

The `OrderedDict` is modelled as a list of `(key, timestamp, value)` slots in
least-recently-used-first order.  Timestamps are integers standing for
`time.time()` readings; `now` is passed explicitly at each call. -/

structure TTLCache (V : Type) where
  ttl : Int
  maxSize : Nat
  store : List (String × Int × V)

/-- The freshly constructed cache. -/
def emptyCache (V : Type) (ttl : Int) (maxSize : Nat) : TTLCache V := ⟨ttl, maxSize, []⟩

/-- Remove the binding of `k` (`pop(key, None)`). -/
def eraseKey {V : Type} (k : String) (l : List (String × Int × V)) :
    List (String × Int × V) :=
  l.filter (fun e => !(e.1 == k))

/-- Dictionary lookup. -/
def lookupKey {V : Type} (k : String) (l : List (String × Int × V)) : Option (Int × V) :=
  (l.find? (fun e => e.1 == k)).map Prod.snd

/-- `while len(store) > max_size: store.popitem(last=False)`. -/
def evictLRU {E : Type} (maxSize : Nat) : List E → List E
  | [] => []
  | e :: es => if (e :: es).length > maxSize then evictLRU maxSize es else e :: es

/-- `TTLCache.get`: a fresh hit moves the slot to most-recently-used and
returns the value; an expired hit removes the slot; a miss changes nothing. -/
def TTLCache.get {V : Type} (c : TTLCache V) (now : Int) (k : String) :
    Option V × TTLCache V :=
  match lookupKey k c.store with
  | none => (none, c)
  | some (ts, v) =>
      if now - ts > c.ttl then (none, { c with store := eraseKey k c.store })
      else (some v, { c with store := eraseKey k c.store ++ [(k, ts, v)] })

/-- `TTLCache.set`: store under the current time, move to most-recently-used,
then evict least-recently-used slots while the size exceeds the bound. -/
def TTLCache.set {V : Type} (c : TTLCache V) (now : Int) (k : String) (v : V) :
    TTLCache V :=
  { c with store := evictLRU c.maxSize (eraseKey k c.store ++ [(k, now, v)]) }

/-- `TTLCache.clear`. -/
def TTLCache.clear {V : Type} (c : TTLCache V) : TTLCache V := { c with store := [] }

/-- One cache operation of a client session. -/
inductive CacheOp (V : Type) where
  | get : Int → String → CacheOp V
  | set : Int → String → V → CacheOp V
  | clear : CacheOp V

/-- Apply one operation (the result value of `get` is dropped here). -/
def applyCacheOp {V : Type} (c : TTLCache V) : CacheOp V → TTLCache V
  | .get now k => (c.get now k).2
  | .set now k v => c.set now k v
  | .clear => c.clear

/-- Run a session against the freshly constructed cache. -/
def runCacheOps {V : Type} (ttl : Int) (maxSize : Nat) (ops : List (CacheOp V)) : TTLCache V :=
  ops.foldl applyCacheOp (emptyCache V ttl maxSize)

/-! ### Documents (`langchain_core.documents.Document` as consumed by the core) -/

/-- Evidence unit: text plus the metadata entries the core reads. -/
structure Doc where
  page_content : String
  source : Option String := none
  page : Option Int := none
  score : Option ℚ := none
deriving Inhabited

/-- `"\n\n---\n\n".join(doc.page_content for doc in docs)`. -/
def joinDocs (docs : List Doc) : String :=
  ⟨List.intercalate "\n\n---\n\n".toList (docs.map (fun d => d.page_content.toList))⟩

/-! ### `skills/risk_score_calculator`: deterministic scorer

Translated from `definition.py` / `impl.py`; the category breakdown and the
risk matrix are computed by the skill but never read by `risk_audit`, so they
are not carried in the output structure. -/

inductive Severity where
  | low | medium | high | critical
deriving BEq, Inhabited

inductive RiskCat where
  | financial | legal | technical | reputational
deriving BEq, Inhabited

inductive Recommendation where
  | go | review | no_go
deriving BEq, Inhabited

/-- The `.value` string of the `Recommendation` enum. -/
def recValue : Recommendation → String
  | .go => "GO"
  | .review => "REVIEW"
  | .no_go => "NO_GO"

/-- `SEVERITY_WEIGHTS`. -/
def sevWeight : Severity → ℚ
  | .low => 2
  | .medium => 5
  | .high => 15
  | .critical => 100

/-- A validated `RiskFactorInput` (pydantic guarantees `description` of length
at least five, stripped, and `probability` within `[0, 1]`). -/
structure RiskFactorInput where
  description : String
  category : RiskCat
  severity : Severity
  probability : ℚ
deriving Inhabited

/-- Result fields of `RiskAssessmentOutput` read by `risk_audit`. -/
structure RiskAssessmentOutput where
  total_score : ℚ
  recommendation : Recommendation
  recommendation_reason : String
  kill_switch_activated : Bool
deriving Inhabited

/-- Python `n` rendered in decimal. -/
def natRepr (n : Nat) : String := ⟨natChars n⟩

/-- Python `f"{x:.1f}"` for the nonnegative scores that reach it: round half
to even at one decimal place, always printing one fractional digit. -/
def qFmt1 (q : ℚ) : String :=
  let x := q * 10
  let n0 := x.floor
  let r := x - n0
  let n := (if r < 1 / 2 then n0 else if r > 1 / 2 then n0 + 1
            else if n0 % 2 = 0 then n0 else n0 + 1).toNat
  ⟨natChars (n / 10) ++ ['.', Char.ofNat ('0'.toNat + n % 10)]⟩

/-- `RiskScoreCalculator._determine_recommendation` with the default
thresholds (70 / 40), as instantiated by `risk_audit`. -/
def determineRecommendation (score : ℚ) (highCount : Nat) : Recommendation × String :=
  if score ≥ 70 then
    if highCount > 0 then
      (.go, "Score favorable (" ++ qFmt1 score ++ "), pero revisar " ++ natRepr highCount
        ++ " riesgo(s) alto(s).")
    else (.go, "Propuesta viable con score de " ++ qFmt1 score ++ "/100.")
  else if score ≥ 40 then
    (.review, "Score moderado (" ++ qFmt1 score ++ "). Se requiere revisión manual antes de decidir.")
  else
    (.no_go, "Score insuficiente (" ++ qFmt1 score ++ "). La acumulación de riesgos desaconseja presentarse.")

/-- `RiskScoreCalculator.calculate` with `allow_empty_risks := true` (the
instantiation used in `risk_audit`): kill switch on any CRITICAL factor,
otherwise a weighted penalty taken off the base score of 100, with the
recommendation decided on the unrounded score and the reported score rounded
to two decimals. -/
def calculate (risks : List RiskFactorInput) : RiskAssessmentOutput :=
  if risks.isEmpty then ⟨100, .go, "No se detectaron riesgos.", false⟩
  else
    let critical_risks := risks.filter (fun r => r.severity == .critical)
    if !critical_risks.isEmpty then
      ⟨0, .no_go,
        "Kill Switch activado: " ++ natRepr critical_risks.length
          ++ " riesgo(s) CRÍTICO(s) detectado(s). La propuesta no es viable.",
        true⟩
    else
      let total_penalty := (risks.map (fun r => sevWeight r.severity * r.probability)).sum
      let high_count := (risks.filter (fun r => r.severity == .high)).length
      let total_score := max 0 (100 - total_penalty)
      let rr := determineRecommendation total_score high_count
      ⟨round2 total_score, rr.1, rr.2, false⟩

/-! ### `app/agents/risk_sentinel.py`: `risk_audit`

`RISK_CALCULATOR_AVAILABLE` is true in this repository (the skill import
succeeds), so the enhanced prompt branch and the skill integration run.
The LLM reply enters as an `Except`: `.error` models `llm.ainvoke` raising.
Everything the LLM reports is a dynamically typed `JValue`; the places where
CPython would raise on an unexpected type (`.upper()`, `.append()`,
`.startswith()`, iteration) are modelled by the same control flow the
`try/except` nesting of the source produces. -/

/-- Python exception value: class name and `str(e)` rendering. -/
structure PyErr where
  name : String
  msg : String
deriving Inhabited

/-- Python `str.upper()` (ASCII case map, as for `pyLower`). -/
def pyUpper (s : String) : String := ⟨s.toList.map Char.toUpper⟩

/-- `getattr(Severity, sev_str, Severity.MEDIUM)`: the enum member names. -/
def sevOfName (s : String) : Severity :=
  if s == "LOW" then .low
  else if s == "MEDIUM" then .medium
  else if s == "HIGH" then .high
  else if s == "CRITICAL" then .critical
  else .medium

/-- `getattr(RiskCategory, cat_str, RiskCategory.FINANCIAL)`: the enum member
names (`definition.py` has only these four). -/
def catOfName (s : String) : RiskCat :=
  if s == "FINANCIAL" then .financial
  else if s == "LEGAL" then .legal
  else if s == "TECHNICAL" then .technical
  else if s == "REPUTATIONAL" then .reputational
  else .financial

/-- Python `float(x)` on a decoded JSON value (`TypeError` → `none`). -/
def pyFloatOfJ : JValue → Option ℚ
  | .jnum m e => some (mkRat m (10 ^ e))
  | .jbool b => some (if b then 1 else 0)
  | .jstr s => pyFloatOfString (pyStrip s)
  | _ => none

/-- One iteration of the factor-conversion loop: `none` when the per-factor
`try` block raises (bad `.upper()` target, failed `float()`, or a pydantic
validation error on `RiskFactorInput`). -/
def convertFactor (rf : JValue) : Option RiskFactorInput :=
  match rf with
  | .jobj f =>
      match jGet f "severity" (.jstr "medium"), jGet f "category" (.jstr "financial") with
      | .jstr sev, .jstr cat =>
          let severity := sevOfName (pyUpper sev)
          let category := catOfName (pyUpper cat)
          match pyFloatOfJ (jGet f "probability" (.jnum 5 1)) with
          | none => none
          | some p =>
              match jGet f "description" (.jstr "Unknown risk") with
              | .jstr d =>
                  if 5 ≤ d.length ∧ 0 ≤ p ∧ p ≤ 1 then
                    some ⟨pyStrip d, category, severity, p⟩
                  else none
              | _ => none
      | _, _ => none
  | _ => none

/-- The synthetic issue entry appended after a successful skill run. -/
def scoreEntry (a : RiskAssessmentOutput) : String :=
  "[RiskScore] Score: " ++ qRepr2 a.total_score ++ "/100. Rec: " ++ recValue a.recommendation

/-- The kill-switch issue entry. -/
def killEntry (a : RiskAssessmentOutput) : String :=
  "[RiskScore] KILL SWITCH ACTIVATED: " ++ a.recommendation_reason

/-- The skill-integration block of `risk_audit` (guarded by
`"risk_factors" in result`).  Iterating a non-list `risk_factors` either
yields items that all fail conversion (string, dict) or raises into the
skill-level handler (null, bool, number); both leave the LLM values alone.
A non-list `issues` makes `.append` raise into the skill-level handler after
the overrides have been applied. -/
def skillStep (fields : List (String × JValue)) (r0 c0 i0 g0 : JValue) :
    JValue × JValue × JValue × JValue :=
  match jGet fields "risk_factors" (.jarr []) with
  | .jarr items =>
      let inputs := items.filterMap convertFactor
      if inputs.isEmpty then (r0, c0, i0, g0)
      else
        let a := calculate inputs
        let rcg : String × String × Bool :=
          match a.recommendation with
          | .go => ("approved", "low", true)
          | .review => ("pending", "medium", true)
          | .no_go => ("rejected", "critical", false)
        let r2 := if a.total_score < 70 then "high" else rcg.2.1
        let r3 := if a.total_score < 40 then "critical" else r2
        match i0 with
        | .jarr l =>
            (.jstr r3, .jstr rcg.1,
             .jarr (l ++ [.jstr (scoreEntry a)]
               ++ (if a.kill_switch_activated then [.jstr (killEntry a)] else [])),
             .jbool rcg.2.2)
        | _ => (.jstr r3, .jstr rcg.1, i0, .jbool rcg.2.2)
  | _ => (r0, c0, i0, g0)

/-- The issue filter `[i for i in issues if i and not i.startswith("Lista SOLO")]`:
falsy items are skipped before `.startswith` is reached, truthy non-strings
raise (`.error`, caught by the outer handler), iterating a string yields its
characters and iterating a dict yields its keys. -/
def filterIssuesList : List JValue → Except String (List String)
  | [] => .ok []
  | .jstr s :: rest =>
      if s.isEmpty then filterIssuesList rest
      else if pyStartsWith s "Lista SOLO" then filterIssuesList rest
      else (filterIssuesList rest).map (fun t => s :: t)
  | v :: rest =>
      if v.truthy then .error "AttributeError" else filterIssuesList rest

/-- The issue filter applied to whatever value `issues` holds. -/
def pyFilterIssues : JValue → Except String (List String)
  | .jarr l => filterIssuesList l
  | .jstr s =>
      .ok ((s.toList.map (fun c => String.singleton c)).filter
        (fun cs => !cs.isEmpty && !pyStartsWith cs "Lista SOLO"))
  | .jobj kvs =>
      .ok ((jKeys kvs).filter (fun k => !k.isEmpty && !pyStartsWith k "Lista SOLO"))
  | _ => .error "TypeError"

/-- The enumeration validation `x not in [...]` applied to a dynamic value. -/
def validateEnum (v : JValue) (allowed : List String) (dflt : String) : String :=
  match v with
  | .jstr s => if allowed.contains s then s else dflt
  | _ => dflt

/-- Model of `risk_audit` from `app/agents/risk_sentinel.py`.  Returns
`(risk_level, compliance_status, issues, gate_passed)`; `gate_passed` is kept
as the dynamic value the code would return. -/
def riskAudit (answer : String) (docs : List Doc) (question : String)
    (resp : Except PyErr String) : String × String × List String × JValue :=
  if answer.length < 50 || containsSub (pyLower answer) "error" then
    ("low", "approved", [], .jbool true)
  else if containsSub (pyLower answer) "no hay documentos" then
    ("low", "approved", [], .jbool true)
  else
    match resp with
    | .error e => ("medium", "approved", ["Error en auditoría: " ++ e.msg], .jbool true)
    | .ok content =>
        match parse_json_response content with
        | none => ("medium", "approved", [], .jbool true)
        | some result =>
            if !result.truthy then ("medium", "approved", [], .jbool true)
            else
              match result with
              | .jobj fields =>
                  let r0 := jGet fields "risk_level" (.jstr "medium")
                  let c0 := jGet fields "compliance_status" (.jstr "approved")
                  let i0 := jGet fields "issues" (.jarr [])
                  let g0 := jGet fields "gate_passed" (.jbool true)
                  let rcig :=
                    if jHasKey fields "risk_factors" then skillStep fields r0 c0 i0 g0
                    else (r0, c0, i0, g0)
                  let r2 := validateEnum rcig.1 ["low", "medium", "high", "critical"] "medium"
                  let c2 := validateEnum rcig.2.1 ["approved", "pending", "rejected"] "approved"
                  match pyFilterIssues rcig.2.2.1 with
                  | .error msg => ("medium", "approved", ["Error en auditoría: " ++ msg], .jbool true)
                  | .ok issuesF => (r2, c2, issuesF, rcig.2.2.2)
              | _ =>
                  ("medium", "approved", ["Error en auditoría: AttributeError"], .jbool true)

/-! ### `app/agents/rfp_graph.py`: state, nodes, wiring

`AgentState` mirrors the TypedDict; `create_initial_state` populates every
key, so the merged state always has all keys and absence only matters inside
the per-node partial updates (`StateUpdate`: `none` = key not in the returned
dict).  The engine merge is last-writer-wins per key (`applyUpdate`).  The
trace id is a parameter (the source draws it from `uuid4`). -/

structure AgentState where
  trace_id : String
  question : String
  context : List Doc
  filtered_context : List Doc
  domain : String
  answer : String
  audit_result : String
  revision_count : Nat
  quant_chart : Option String
  quant_chart_type : Option String
  quant_insights : Option String
  quant_data_quality : Option String
  risk_level : Option String
  compliance_status : Option String
  risk_issues : List String
  gate_passed : Option JValue
  no_documents : Option Bool
deriving Inhabited

/-- A node's partial update: `none` means the key is absent from the dict. -/
structure StateUpdate where
  context : Option (List Doc) := none
  filtered_context : Option (List Doc) := none
  domain : Option String := none
  answer : Option String := none
  audit_result : Option String := none
  revision_count : Option Nat := none
  quant_chart : Option (Option String) := none
  quant_chart_type : Option String := none
  quant_insights : Option String := none
  quant_data_quality : Option String := none
  risk_level : Option String := none
  compliance_status : Option String := none
  risk_issues : Option (List String) := none
  gate_passed : Option JValue := none
  no_documents : Option Bool := none

/-- Last-writer-wins merge of a partial update into the state. -/
def applyUpdate (s : AgentState) (u : StateUpdate) : AgentState :=
  { s with
    context := u.context.getD s.context
    filtered_context := u.filtered_context.getD s.filtered_context
    domain := u.domain.getD s.domain
    answer := u.answer.getD s.answer
    audit_result := u.audit_result.getD s.audit_result
    revision_count := u.revision_count.getD s.revision_count
    quant_chart := u.quant_chart.getD s.quant_chart
    quant_chart_type := (u.quant_chart_type.map some).getD s.quant_chart_type
    quant_insights := (u.quant_insights.map some).getD s.quant_insights
    quant_data_quality := (u.quant_data_quality.map some).getD s.quant_data_quality
    risk_level := (u.risk_level.map some).getD s.risk_level
    compliance_status := (u.compliance_status.map some).getD s.compliance_status
    risk_issues := u.risk_issues.getD s.risk_issues
    gate_passed := (u.gate_passed.map some).getD s.gate_passed
    no_documents := (u.no_documents.map some).getD s.no_documents }

/-- `create_initial_state` from `app/agents/state.py`. -/
def createInitialState (question traceId : String) : AgentState :=
  { trace_id := traceId
    question := question
    context := []
    filtered_context := []
    domain := ""
    answer := ""
    audit_result := ""
    revision_count := 0
    quant_chart := none
    quant_chart_type := none
    quant_insights := none
    quant_data_quality := none
    risk_level := none
    compliance_status := none
    risk_issues := []
    gate_passed := none
    no_documents := none }

/-- `_get_docs`: `state.get("filtered_context") or state.get("context", [])`. -/
def getDocs (s : AgentState) : List Doc :=
  if s.filtered_context.isEmpty then s.context else s.filtered_context

/-- The fixed no-documents message (`NO_DOCUMENTS_MESSAGE`). -/
def NO_DOCUMENTS_MESSAGE : String :=
  "No hay documentos cargados en el sistema.\n\nPara poder responder tu pregunta, por favor:\n\n1. **Sube uno o más documentos PDF** usando el área de carga en la interfaz\n2. Espera a que se procesen los documentos\n3. Vuelve a hacer tu pregunta\n\nUna vez que hayas cargado los documentos de licitación, podré analizar y responder preguntas específicas sobre su contenido."

/-- The partial update returned by `retrieve_node` when retrieval is empty. -/
def noDocsUpdate : StateUpdate :=
  { context := some []
    filtered_context := some []
    revision_count := some 0
    domain := some "none"
    answer := some NO_DOCUMENTS_MESSAGE
    audit_result := some "pass"
    no_documents := some true }

/-- The results of the suspending calls of one request.  Calls that repeat in
the refine loop are indexed by round.  `quantResult` is the 4-tuple coming
back from `quant_analyze`, which never raises (its own handler returns the
error tuple), so the node-level handler of `quant_node` is dead code. -/
structure Oracle where
  retrieval : Except PyErr (List Doc)
  graderResp : Nat → Except PyErr String
  routerResp : Except PyErr String
  specialistResp : Except PyErr String
  quantResult : Option String × String × String × String
  riskResp : Nat → Except PyErr String
  refineResp : Nat → Except PyErr String

/-- `retrieve_node`: empty retrieval short-circuits with `noDocsUpdate`; a
retrieval error degrades to empty context.  (`k=10` only shapes the call.) -/
def retrieveNode (o : Oracle) (s : AgentState) : StateUpdate :=
  match o.retrieval with
  | .error _ => { context := some [], revision_count := some 0 }
  | .ok docs =>
      if docs.isEmpty then noDocsUpdate
      else { context := some docs, revision_count := some 0 }

/-- One per-document grade: `"relevant" in grade and "not_relevant" not in grade`
over the stripped, lowered LLM reply. -/
def gradeOne (reply : String) : Bool :=
  let g := pyLower (pyStrip reply)
  containsSub g "relevant" && !containsSub g "not_relevant"

/-- `grade_documents_node` (the sequential per-document variant wired in
`rfp_graph.py`): any LLM error aborts the loop into the handler, which falls
back to the top five retrieved documents; an empty relevant list does the
same. -/
def gradeRelevant (o : Oracle) (s : AgentState) : List Doc :=
  (s.context.enum.filter (fun e =>
    match o.graderResp e.1 with
    | .ok reply => gradeOne reply
    | .error _ => false)).map Prod.snd

def gradeDocumentsNode (o : Oracle) (s : AgentState) : StateUpdate :=
  if (List.range s.context.length).any
      (fun i => match o.graderResp i with | .error _ => true | .ok _ => false) then
    { filtered_context := some (s.context.take 5) }
  else if (gradeRelevant o s).isEmpty then { filtered_context := some (s.context.take 5) }
  else { filtered_context := some (gradeRelevant o s) }

/-- The closed domain list of `subagents.DOMAINS`. -/
def DOMAINS : List String :=
  ["legal", "technical", "financial", "timeline", "requirements", "general", "quantitative"]

/-- `route_question`: strip and lower the reply, coerce unknown domains (and
any LLM error) to `"general"`. -/
def routeQuestion (resp : Except PyErr String) : String :=
  match resp with
  | .error _ => "general"
  | .ok c =>
      let d := pyLower (pyStrip c)
      if DOMAINS.contains d then d else "general"

/-- `router_node` (its own handler is dead: `route_question` never raises). -/
def routerNode (o : Oracle) (s : AgentState) : StateUpdate :=
  { domain := some (routeQuestion o.routerResp) }

/-- Python `s[:n]`. -/
def takeChars (n : Nat) (s : String) : String := ⟨s.toList.take n⟩

/-- `specialist_generate` from `subagents.py`: whitespace-only flattened
context short-circuits without calling the LLM; an LLM exception is caught
here and rendered as the truncated error string. -/
def specialistGenerate (question : String) (context : List Doc) (domain : String)
    (llm : Except PyErr String) : String :=
  let context_text := joinDocs context
  if (pyStrip context_text).isEmpty then
    "No encontré información relevante para responder tu pregunta."
  else
    match llm with
    | .ok c => c
    | .error e =>
        "Error en el agente especializado (" ++ e.name ++ "): " ++ takeChars 200 e.msg
          ++ ". Revisa los logs para más detalles."

/-- `specialist_node` as wired in `rfp_graph.py` (no `quantitative → general`
coercion in this variant; `specialist_generate` already catches every LLM
error, so the node-level handlers are dead code on this path). -/
def specialistNode (o : Oracle) (s : AgentState) : StateUpdate :=
  { answer := some (specialistGenerate s.question (getDocs s) s.domain o.specialistResp) }

/-- `quant_node`: a no-op off the quantitative domain, otherwise the
`quant_analyze` 4-tuple is written, with the insight doubling as the answer. -/
def quantNode (o : Oracle) (s : AgentState) : StateUpdate :=
  if s.domain ≠ "quantitative" then {}
  else
    { quant_chart := some o.quantResult.1
      quant_chart_type := some o.quantResult.2.1
      quant_insights := some o.quantResult.2.2.1
      quant_data_quality := some o.quantResult.2.2.2
      answer := some o.quantResult.2.2.1 }

/-- `risk_sentinel_node`: run the audit and derive
`audit_result := "pass" if compliance != "rejected" else "fail"`. -/
def riskSentinelNode (resp : Except PyErr String) (s : AgentState) : StateUpdate :=
  let rcig := riskAudit s.answer (getDocs s) s.question resp
  { risk_level := some rcig.1
    compliance_status := some rcig.2.1
    risk_issues := some rcig.2.2.1
    gate_passed := some rcig.2.2.2
    audit_result := some (if rcig.2.1 ≠ "rejected" then "pass" else "fail") }

/-- `refine_node`: the revision counter advances even when the LLM raises
(only the counter is returned then), guaranteeing loop progress. -/
def refineNode (resp : Except PyErr String) (s : AgentState) : StateUpdate :=
  let current := s.revision_count + 1
  match resp with
  | .ok c => { answer := some c, revision_count := some current }
  | .error _ => { revision_count := some current }

/-- Edge selector `route_after_retrieve`. -/
def route_after_retrieve (s : AgentState) : String :=
  if (s.no_documents.getD false) then "end" else "grade_documents"

/-- Edge selector `route_after_router`. -/
def route_after_router (s : AgentState) : String :=
  if s.domain == "quantitative" then "quant" else "specialist"

/-- Edge selector `should_continue_after_audit` exactly as wired: the bound
is the literal `2`. -/
def should_continue_after_audit (s : AgentState) : String :=
  if s.audit_result == "fail" && s.revision_count < 2 then "refine" else "end"

/-- The `risk_sentinel → (refine → risk_sentinel)* → END` loop of the wired
graph, with `fuel` bounding the number of audit rounds (`none` = fuel ran
out, which the theorems below rule out for any fuel of at least three). -/
def auditLoop (o : Oracle) : Nat → Nat → AgentState → Option AgentState
  | 0, _, _ => none
  | fuel + 1, round, s =>
      let s1 := applyUpdate s (riskSentinelNode (o.riskResp round) s)
      if should_continue_after_audit s1 == "refine" then
        auditLoop o fuel (round + 1) (applyUpdate s1 (refineNode (o.refineResp round) s1))
      else some s1

/-- The wired graph `START → retrieve → (END | grade_documents → router →
(specialist | quant) → risk_sentinel (→ refine → risk_sentinel)* ) → END`
compiled in `rfp_graph.py` (the registered `auditor` node has no incoming
edge and never runs). -/
def runPipeline (o : Oracle) (question traceId : String) (fuel : Nat) : Option AgentState :=
  let s0 := createInitialState question traceId
  let s1 := applyUpdate s0 (retrieveNode o s0)
  if route_after_retrieve s1 == "end" then some s1
  else
    let s2 := applyUpdate s1 (gradeDocumentsNode o s1)
    let s3 := applyUpdate s2 (routerNode o s2)
    let s4 :=
      if route_after_router s3 == "quant" then applyUpdate s3 (quantNode o s3)
      else applyUpdate s3 (specialistNode o s3)
    auditLoop o fuel 0 s4

/-! ### `app/agents/nodes/grader.py`: the batched grader with safety net -/

/-- The knobs of `Settings` the batched grader reads (`config.py` validates
`safety_net_min_docs ≥ 1` and `safety_net_fallback_docs ≥ 1`). -/
structure GraderSettings where
  safety_net_min_docs : Nat := 3
  safety_net_fallback_docs : Nat := 5

/-- The data-heavy keyword set of `_detect_data_heavy_question`. -/
def dataHeavyKeywords : List String :=
  ["fecha", "cronograma", "plazo", "calendario", "hito", "presupuesto", "monto",
   "garantia", "pago", "financier", "tabla", "porcentaje", "%", "usd", "ars",
   "cantidad", "cuanto", "cuando", "timeline", "schedule"]

/-- `_detect_data_heavy_question`: case-insensitive substring match. -/
def detectDataHeavy (question : String) : Bool :=
  dataHeavyKeywords.any (fun kw => containsSub (pyLower question) kw)

/-- `line.split(":", 1)` for a line known to contain a colon. -/
def splitFirstColon (l : List Char) : List Char × List Char :=
  (l.takeWhile (fun c => c != ':'), (l.dropWhile (fun c => c != ':')).drop 1)

/-- One line of the batched grader reply: skip blank or colon-less lines,
parse the 1-based index (a failed `int()` skips the line), re-check bounds,
and collect the document when the grade reads relevant. -/
def gradeLineStep (context : List Doc) (acc : List Doc) (line : List Char) : List Doc :=
  let line := pyStripL line
  if line.isEmpty || !containsL line [':'] then acc
  else
    let parts := splitFirstColon line
    match pyIntOfString ⟨pyStripL parts.1⟩ with
    | none => acc
    | some idx1 =>
        let docIdx := idx1 - 1
        let grade := pyStripL parts.2
        let isRel := containsL grade "relevant".toList && !containsL grade "not_relevant".toList
        if 0 ≤ docIdx ∧ docIdx < context.length then
          if isRel then acc ++ [context.getD docIdx.toNat default] else acc
        else acc

/-- The relevant-document list parsed out of the batched grader reply. -/
def gradeBatchRelevant (context : List Doc) (gradesText : String) : List Doc :=
  ((pyLower (pyStrip gradesText)).toList.splitOn '\n').foldl (gradeLineStep context) []

/-- `_grade_documents_node` reduced to its output value: the LLM reply (or
its error) in, the `filtered_context` update out.  The safety net: a
data-heavy question with fewer relevant documents than
`safety_net_min_docs`, or no relevant documents at all, falls back to the
top `safety_net_fallback_docs` of the retrieval order; so does the handler
on an LLM error. -/
def gradeDocumentsBatch (cfg : GraderSettings) (context : List Doc) (question : String)
    (resp : Except PyErr String) : List Doc :=
  match resp with
  | .error _ => context.take cfg.safety_net_fallback_docs
  | .ok text =>
      let relevant := gradeBatchRelevant context text
      let isDataHeavy := detectDataHeavy question
      if relevant.length < cfg.safety_net_min_docs && isDataHeavy then
        context.take cfg.safety_net_fallback_docs
      else if relevant.isEmpty then
        context.take cfg.safety_net_fallback_docs
      else relevant

/-! ### `app/agents/quant.py`: `generate_chart` (validation and coercion) -/

/-- `str(v).replace(",", "").replace(".", "").replace(" ", "")` for `v` a
string. -/
def stripSeps (s : String) : String :=
  ⟨s.toList.filter (fun c => !(c == ',' || c == '.' || c == ' '))⟩

/-- The per-value coercion of `generate_chart`: strings go through the
separator strip then `float()`; other values go to `float()` directly
(`TypeError` on null/list/dict → `none`, caught as a failed conversion). -/
def coerceChartValue (v : JValue) : Option ℚ :=
  match v with
  | .jstr s => pyFloatOfString (pyStrip (stripSeps s))
  | .jnum m e => some (mkRat m (10 ^ e))
  | .jbool b => some (if b then 1 else 0)
  | _ => none

/-- The whole-list coercion; `none` as soon as one value fails. -/
def coerceValues : List JValue → Option (List ℚ)
  | [] => some []
  | v :: vs =>
      match coerceChartValue v with
      | none => none
      | some q =>
          match coerceValues vs with
          | none => none
          | some qs => some (q :: qs)

/-- Python `len(x)` on a decoded JSON value (`none` = `TypeError`). -/
def jLen : JValue → Option Nat
  | .jarr l => some l.length
  | .jstr s => some s.length
  | .jobj kvs => some (jKeys kvs).length
  | _ => none

/-- Python iteration over a decoded JSON value (`none` = `TypeError`);
strings iterate as their characters, dicts as their keys. -/
def jIter : JValue → Option (List JValue)
  | .jarr l => some l
  | .jstr s => some (s.toList.map (fun c => .jstr (String.singleton c)))
  | .jobj kvs => some ((jKeys kvs).map .jstr)
  | _ => none

/-- `generate_chart` up to the rendering loop, which is matplotlib work
modelled by the `render` oracle (attempt number in, base64 out; `none` = the
attempt raised).  `.error` models an uncaught `TypeError` from `len()` or the
`for` loop on an unsized `categories` / `values`, which propagates to the
caller (`quant_analyze` catches it there). -/
def generate_chart (data : List (String × JValue)) (chartType : String)
    (render : Nat → Option String) : Except String (Option String) :=
  if chartType == "none" || chartType == "table" then .ok none
  else
    let categories := jGet data "categories" (.jarr [])
    let values := jGet data "values" (.jarr [])
    if !categories.truthy || !values.truthy then .ok none
    else
      match jLen categories, jLen values with
      | some lc, some lv =>
          if lc ≠ lv then .ok none
          else
            match jIter values with
            | some items =>
                match coerceValues items with
                | none => .ok none
                | some _ =>
                    match render 0 with
                    | some b => .ok (some b)
                    | none =>
                        match render 1 with
                        | some b => .ok (some b)
                        | none => .ok none
            | none => .error "TypeError"
      | _, _ => .error "TypeError"

/-! ### `app/api/response_builder.py`: `build_query_response`

The wire structures keep the optional fields as the values the state holds
(pydantic would reject a `None` where a `str` is required; no claim touches
that).  The `sources` set comprehension iterates in unspecified Python set
order; it is modelled as first-occurrence order. -/

structure QuantAnalysisW where
  chart_base64 : Option String
  chart_type : Option String
  insights : Option String
  data_quality : Option String

structure RiskAssessmentW where
  risk_level : Option String
  compliance_status : Option String
  issues : List String
  gate_passed : Option JValue

structure AgentMetadataW where
  domain : String
  specialist_used : String
  documents_retrieved : Nat
  documents_filtered : Nat
  revision_count : Nat
  audit_result : String
  quant_analysis : Option QuantAnalysisW
  risk_assessment : Option RiskAssessmentW

structure QueryResponseW where
  answer : String
  sources : List String
  agent_metadata : AgentMetadataW

/-- Python truthiness of an optional string (`None` and `""` are falsy). -/
def truthyOptStr : Option String → Bool
  | none => false
  | some s => !s.isEmpty

/-- `build_query_response`. -/
def build_query_response (result : AgentState) : QueryResponseW :=
  let context_docs := result.context
  let filtered_docs := if result.filtered_context.isEmpty then context_docs
                       else result.filtered_context
  let sources := (filtered_docs.filterMap (fun d =>
    match d.source with
    | some src => if src.isEmpty then none else some src
    | none => none)).eraseDups
  let quant_analysis :=
    if truthyOptStr result.quant_chart || truthyOptStr result.quant_insights then
      some (QuantAnalysisW.mk result.quant_chart result.quant_chart_type
        result.quant_insights result.quant_data_quality)
    else none
  let risk_assessment :=
    if truthyOptStr result.risk_level then
      some (RiskAssessmentW.mk result.risk_level result.compliance_status
        result.risk_issues result.gate_passed)
    else none
  let domain := result.domain
  let specialist_name := if domain == "quantitative" then "quant" else "specialist_" ++ domain
  QueryResponseW.mk result.answer sources
    (AgentMetadataW.mk domain specialist_name context_docs.length filtered_docs.length
      result.revision_count result.audit_result quant_analysis risk_assessment)

/-! ### Concrete instances used by witnesses and counterexamples -/

/-- A retrieved document. -/
def okDoc : Doc :=
  { page_content := "Presupuesto total: USD 5,000,000", source := some "pliego.pdf" }

/-- A benign full run: retrieval succeeds, router picks `financial`, the
specialist answers, the risk LLM reply is unparseable JSON. -/
def oBase : Oracle :=
  { retrieval := .ok [okDoc]
    graderResp := fun _ => .ok "relevant"
    routerResp := .ok "financial"
    specialistResp := .ok "La garantía de cumplimiento exigida es del 40% del monto contractual vigente."
    quantResult := (none, "none", "", "incomplete")
    riskResp := fun _ => .ok "no json"
    refineResp := fun _ => .ok "respuesta refinada" }

/-- As `oBase` but the vector store is empty. -/
def oEmpty : Oracle := { oBase with retrieval := .ok [] }

/-- As `oBase` but the specialist's LLM call raises. -/
def oSpecErr : Oracle := { oBase with specialistResp := .error ⟨"TimeoutError", "llm timed out"⟩ }

/-- As `oBase` but the router classifies `quantitative` and the quant
sub-pipeline comes back with no chart and a whitespace-stripped empty
insight. -/
def oQuant : Oracle := { oBase with routerResp := .ok "quantitative" }

/-- The terminal state of the benign run. -/
def termBase : AgentState := (runPipeline oBase "q" "t" 10).getD default

/-- The terminal state of the empty-index run. -/
def termEmpty : AgentState := (runPipeline oEmpty "q" "t" 10).getD default

/-- The terminal state of the failing-specialist run. -/
def termSpecErr : AgentState := (runPipeline oSpecErr "q" "t" 10).getD default

/-- The terminal state of the quant run with empty insight. -/
def termQuant : AgentState := (runPipeline oQuant "q" "t" 10).getD default

/-- A state whose audit failed with no revisions spent. -/
def stateFail0 : AgentState := { createInitialState "q" "t" with audit_result := "fail" }

/-- An audited answer long enough to escape the short-answer auto-approval
and free of the `error` and `no hay documentos` markers. -/
def longAnswer : String :=
  "La propuesta describe los montos, garantías y plazos de la licitación vigente."

/-- Risk factors whose deterministic score lands at `39.998046875`: four HIGH
at probability one and one LOW at probability `2 ^ (-10)` (exact in binary64),
so the recommendation is NO_GO while the rounded score is exactly `40.0`. -/
def cxFactors : JValue := .jarr
  [ .jobj [("severity", .jstr "high"), ("probability", .jnum 10 1)]
  , .jobj [("severity", .jstr "high"), ("probability", .jnum 10 1)]
  , .jobj [("severity", .jstr "high"), ("probability", .jnum 10 1)]
  , .jobj [("severity", .jstr "high"), ("probability", .jnum 10 1)]
  , .jobj [("severity", .jstr "low"), ("probability", .jnum 9765625 10)] ]

/-- The LLM reply carrying `cxFactors` with approving LLM-reported fields. -/
def cxContent : String :=
  "\x7b\"risk_factors\": [\x7b\"severity\": \"high\", \"probability\": 1.0\x7d, \x7b\"severity\": \"high\", \"probability\": 1.0\x7d, \x7b\"severity\": \"high\", \"probability\": 1.0\x7d, \x7b\"severity\": \"high\", \"probability\": 1.0\x7d, \x7b\"severity\": \"low\", \"probability\": 0.0009765625\x7d], \"compliance_status\": \"approved\", \"gate_passed\": true, \"issues\": []\x7d"

/-- An LLM reply with one CRITICAL factor (kill switch, score zero). -/
def wContent : String :=
  "\x7b\"risk_factors\": [\x7b\"severity\": \"critical\", \"probability\": 1.0\x7d], \"issues\": []\x7d"

/-- An LLM reply whose scorer recommends GO but whose `issues` field is the
number `5`: the appended score entry is lost and the filter raises. -/
def cx10Content : String :=
  "\x7b\"risk_factors\": [\x7b\"severity\": \"low\", \"probability\": 0.5\x7d], \"issues\": 5\x7d"

/-- An LLM reply whose scorer recommends GO with a well-formed issue list. -/
def w10Content : String :=
  "\x7b\"risk_factors\": [\x7b\"severity\": \"low\", \"probability\": 0.5\x7d], \"issues\": [\"observacion\"]\x7d"

/-! ## Theorems

First the generic facts about the engine (merge, loop invariants), then the
claims in order. -/

theorem applyUpdate_revision (s : AgentState) (u : StateUpdate) :
    (applyUpdate s u).revision_count = u.revision_count.getD s.revision_count := rfl

theorem applyUpdate_no_documents (s : AgentState) (u : StateUpdate) :
    (applyUpdate s u).no_documents = (u.no_documents.map some).getD s.no_documents := rfl

theorem riskSentinelNode_revision (resp : Except PyErr String) (s : AgentState) :
    (riskSentinelNode resp s).revision_count = none := rfl

theorem riskSentinelNode_no_documents (resp : Except PyErr String) (s : AgentState) :
    (riskSentinelNode resp s).no_documents = none := rfl

theorem refineNode_revision (resp : Except PyErr String) (s : AgentState) :
    (refineNode resp s).revision_count = some (s.revision_count + 1) := by
  unfold refineNode
  cases resp <;> rfl

theorem refineNode_no_documents (resp : Except PyErr String) (s : AgentState) :
    (refineNode resp s).no_documents = none := by
  unfold refineNode
  cases resp <;> rfl

/-- Inside the audit loop the revision counter never passes the bound. -/
theorem auditLoop_revision_le (o : Oracle) :
    ∀ (fuel round : Nat) (s s' : AgentState), s.revision_count ≤ 2 →
      auditLoop o fuel round s = some s' → s'.revision_count ≤ 2 := by
  intro fuel
  induction fuel with
  | zero => intro round s s' _ h; simp [auditLoop] at h
  | succ n ih =>
      intro round s s' hle h
      rw [auditLoop] at h
      set s1 := applyUpdate s (riskSentinelNode (o.riskResp round) s) with hs1
      have hrev1 : s1.revision_count = s.revision_count := by
        rw [hs1, applyUpdate_revision, riskSentinelNode_revision]; rfl
      by_cases hc : should_continue_after_audit s1 == "refine"
      · rw [if_pos hc] at h
        have hlt : s1.revision_count < 2 := by
          unfold should_continue_after_audit at hc
          by_cases h2 : s1.revision_count < 2
          · exact h2
          · simp [h2] at hc
        refine ih (round + 1) _ s' ?_ h
        rw [applyUpdate_revision, refineNode_revision]
        simp
        omega
      · rw [if_neg hc] at h
        simp only [Option.some.injEq] at h
        rw [← h, hrev1]
        exact hle

/-- The audit loop never writes `no_documents`. -/
theorem auditLoop_no_documents (o : Oracle) :
    ∀ (fuel round : Nat) (s s' : AgentState),
      auditLoop o fuel round s = some s' → s'.no_documents = s.no_documents := by
  intro fuel
  induction fuel with
  | zero => intro round s s' h; simp [auditLoop] at h
  | succ n ih =>
      intro round s s' h
      rw [auditLoop] at h
      set s1 := applyUpdate s (riskSentinelNode (o.riskResp round) s) with hs1
      have h1 : s1.no_documents = s.no_documents := by
        rw [hs1, applyUpdate_no_documents, riskSentinelNode_no_documents]; rfl
      by_cases hc : should_continue_after_audit s1 == "refine"
      · rw [if_pos hc] at h
        have := ih (round + 1) _ s' h
        rw [this, applyUpdate_no_documents, refineNode_no_documents]
        simpa using h1
      · rw [if_neg hc] at h
        simp only [Option.some.injEq] at h
        rw [← h]
        exact h1

theorem gradeDocumentsNode_no_documents (o : Oracle) (s : AgentState) :
    (gradeDocumentsNode o s).no_documents = none := by
  unfold gradeDocumentsNode
  split
  · rfl
  · split <;> rfl

theorem gradeDocumentsNode_revision (o : Oracle) (s : AgentState) :
    (gradeDocumentsNode o s).revision_count = none := by
  unfold gradeDocumentsNode
  split
  · rfl
  · split <;> rfl

theorem routerNode_no_documents (o : Oracle) (s : AgentState) :
    (routerNode o s).no_documents = none := rfl

theorem routerNode_revision (o : Oracle) (s : AgentState) :
    (routerNode o s).revision_count = none := rfl

theorem specialistNode_no_documents (o : Oracle) (s : AgentState) :
    (specialistNode o s).no_documents = none := rfl

theorem specialistNode_revision (o : Oracle) (s : AgentState) :
    (specialistNode o s).revision_count = none := rfl

theorem quantNode_no_documents (o : Oracle) (s : AgentState) :
    (quantNode o s).no_documents = none := by
  unfold quantNode
  split <;> rfl

theorem quantNode_revision (o : Oracle) (s : AgentState) :
    (quantNode o s).revision_count = none := by
  unfold quantNode
  split <;> rfl

theorem retrieveNode_revision (o : Oracle) (s : AgentState) :
    (retrieveNode o s).revision_count = some 0 := by
  unfold retrieveNode
  cases o.retrieval with
  | error e => rfl
  | ok docs =>
      by_cases hd : docs.isEmpty
      · simp [hd]; rfl
      · simp [hd]

/-- Every terminal state of the wired graph spends at most two revisions. -/
theorem runPipeline_revision_le (o : Oracle) (q tid : String) (fuel : Nat) (s : AgentState)
    (h : runPipeline o q tid fuel = some s) : s.revision_count ≤ 2 := by
  unfold runPipeline at h
  set s0 := createInitialState q tid with hs0
  set s1 := applyUpdate s0 (retrieveNode o s0) with hs1
  have hrev1 : s1.revision_count = 0 := by
    rw [hs1, applyUpdate_revision, retrieveNode_revision]
    rfl
  by_cases hb : route_after_retrieve s1 == "end"
  · rw [if_pos hb] at h
    simp only [Option.some.injEq] at h
    rw [← h, hrev1]
    omega
  · rw [if_neg hb] at h
    dsimp only at h
    set s2 := applyUpdate s1 (gradeDocumentsNode o s1) with hs2
    set s3 := applyUpdate s2 (routerNode o s2) with hs3
    have hrev3 : s3.revision_count = 0 := by
      rw [hs3, applyUpdate_revision, routerNode_revision, hs2, applyUpdate_revision,
        gradeDocumentsNode_revision]
      simpa using hrev1
    by_cases hr : route_after_router s3 == "quant"
    · rw [if_pos hr] at h
      refine auditLoop_revision_le o fuel 0 _ s ?_ h
      rw [applyUpdate_revision, quantNode_revision]
      simp [hrev3]
    · rw [if_neg hr] at h
      refine auditLoop_revision_le o fuel 0 _ s ?_ h
      rw [applyUpdate_revision, specialistNode_revision]
      simp [hrev3]

/-- C1, counterexample: the claim quantifies over every legal
`max_audit_revisions` in `0..10`, but the wired selector compares against the
literal `2`.  At the legal configuration `max_audit_revisions = 0` and a
state that failed its audit with no revisions spent, the selector says
`refine` while the claimed equivalence demands `END`. -/
theorem claim_C1_counterexample :
    (0 : Nat) ≤ 10 ∧
    should_continue_after_audit stateFail0 = "refine" ∧
    ¬ (should_continue_after_audit stateFail0 = "refine" ↔
        (stateFail0.audit_result = "fail" ∧ stateFail0.revision_count < 0)) := by
  refine ⟨by omega, rfl, fun h => ?_⟩
  exact absurd (h.mp rfl).2 (by decide)

/-- C1, amended: `should_continue_after_audit` returns `"refine"` iff the
audit failed and fewer than `2` revisions were spent — `2` being the literal
bound wired into `rfp_graph.py` (equal to the default `max_audit_revisions`
but not read from the configuration) — and every terminal state of the wired
graph satisfies `revision_count ≤ 2`. -/
theorem claim_C1 :
    (∀ s : AgentState, should_continue_after_audit s = "refine" ↔
        (s.audit_result = "fail" ∧ s.revision_count < 2)) ∧
    (∀ (o : Oracle) (q tid : String) (fuel : Nat) (s : AgentState),
        runPipeline o q tid fuel = some s → s.revision_count ≤ 2) := by
  constructor
  · intro s
    unfold should_continue_after_audit
    by_cases h1 : s.audit_result = "fail" <;> by_cases h2 : s.revision_count < 2 <;>
      simp [h1, h2]
  · exact fun o q tid fuel s h => runPipeline_revision_le o q tid fuel s h

/-- C1, witness: the amended statement applied to a concrete completed run. -/
theorem claim_C1_witness :
    runPipeline oBase "q" "t" 10 = some termBase ∧ termBase.revision_count ≤ 2 :=
  ⟨rfl, claim_C1.2 oBase "q" "t" 10 termBase rfl⟩

/-- Any terminal state that carries `no_documents = true` is the untouched
short-circuit state of `retrieve_node`. -/
theorem runPipeline_no_documents_inv (o : Oracle) (q tid : String) (fuel : Nat)
    (s : AgentState) (h : runPipeline o q tid fuel = some s)
    (hnd : s.no_documents = some true) :
    s.context = [] ∧ s.audit_result = "pass" ∧ s.answer = NO_DOCUMENTS_MESSAGE := by
  unfold runPipeline at h
  set s0 := createInitialState q tid with hs0
  set s1 := applyUpdate s0 (retrieveNode o s0) with hs1
  by_cases hb : route_after_retrieve s1 == "end"
  · rw [if_pos hb] at h
    simp only [Option.some.injEq] at h
    rw [← hs1] at h
    subst h
    rcases hr : o.retrieval with e | docs
    · exfalso
      have hno : s1.no_documents = none := by
        rw [hs1, applyUpdate_no_documents]
        unfold retrieveNode
        rw [hr]
        rfl
      rw [hno] at hnd
      exact Option.noConfusion hnd
    · cases docs with
      | nil =>
          have hupd : retrieveNode o s0 = noDocsUpdate := by
            unfold retrieveNode
            rw [hr]
            rfl
          rw [hs1, hupd]
          exact ⟨rfl, rfl, rfl⟩
      | cons d ds =>
          exfalso
          have hno : s1.no_documents = none := by
            rw [hs1, applyUpdate_no_documents]
            unfold retrieveNode
            rw [hr]
            simp
            rfl
          rw [hno] at hnd
          exact Option.noConfusion hnd
  · exfalso
    rw [if_neg hb] at h
    dsimp only at h
    set s2 := applyUpdate s1 (gradeDocumentsNode o s1) with hs2
    set s3 := applyUpdate s2 (routerNode o s2) with hs3
    have hnd3 : s3.no_documents = s1.no_documents := by
      rw [hs3, applyUpdate_no_documents, routerNode_no_documents, hs2,
        applyUpdate_no_documents, gradeDocumentsNode_no_documents]
      rfl
    have hnd4 : s.no_documents = s1.no_documents := by
      by_cases hr : route_after_router s3 == "quant"
      · rw [if_pos hr] at h
        have := auditLoop_no_documents o fuel 0 _ s h
        rw [this, applyUpdate_no_documents, quantNode_no_documents]
        simpa using hnd3
      · rw [if_neg hr] at h
        have := auditLoop_no_documents o fuel 0 _ s h
        rw [this, applyUpdate_no_documents, specialistNode_no_documents]
        simpa using hnd3
    have hno1 : s1.no_documents = some true := by rw [← hnd4, hnd]
    apply hb
    unfold route_after_retrieve
    rw [hno1]
    rfl

/-- C2: with an empty retrieval result, `retrieve_node` returns exactly the
partial update `{context: [], filtered_context: [], revision_count: 0,
domain: "none", answer: NO_DOCUMENTS_MESSAGE, audit_result: "pass",
no_documents: true}` (that is `noDocsUpdate`, and no other key);
`route_after_retrieve` then selects the END branch; and every terminal state
with `no_documents = true` has empty context, a passing audit and exactly the
fixed no-documents message as its answer. -/
theorem claim_C2 :
    (∀ (o : Oracle) (s : AgentState), o.retrieval = .ok [] → retrieveNode o s = noDocsUpdate) ∧
    (∀ s : AgentState, s.no_documents = some true → route_after_retrieve s = "end") ∧
    (∀ (o : Oracle) (q tid : String) (fuel : Nat) (s : AgentState),
        runPipeline o q tid fuel = some s → s.no_documents = some true →
        s.context = [] ∧ s.audit_result = "pass" ∧ s.answer = NO_DOCUMENTS_MESSAGE) := by
  refine ⟨?_, ?_, fun o q tid fuel s h hnd => runPipeline_no_documents_inv o q tid fuel s h hnd⟩
  · intro o s hr
    unfold retrieveNode
    rw [hr]
    rfl
  · intro s hnd
    unfold route_after_retrieve
    rw [hnd]
    rfl

/-- C2, witness: the empty-index run reaches exactly the no-documents
terminal state. -/
theorem claim_C2_witness :
    oEmpty.retrieval = .ok [] ∧
    retrieveNode oEmpty (createInitialState "q" "t") = noDocsUpdate ∧
    runPipeline oEmpty "q" "t" 10 = some termEmpty ∧
    termEmpty.no_documents = some true ∧
    termEmpty.context = [] ∧ termEmpty.audit_result = "pass" ∧
    termEmpty.answer = NO_DOCUMENTS_MESSAGE := by
  refine ⟨rfl, claim_C2.1 oEmpty _ rfl, rfl, rfl, ?_⟩
  exact claim_C2.2.2 oEmpty "q" "t" 10 termEmpty rfl rfl

/-! ### Cache lemmas (C6) -/

/-- Well-formedness of the modelled `OrderedDict`: keys are distinct. -/
def cacheWF {V : Type} (c : TTLCache V) : Prop :=
  (c.store.map (fun e => e.1)).Nodup

theorem lookupKey_of_mem {V : Type} {l : List (String × Int × V)} {k : String} {ts : Int}
    {v : V} (hnd : (l.map (fun e => e.1)).Nodup) (hm : (k, ts, v) ∈ l) :
    lookupKey k l = some (ts, v) := by
  induction l with
  | nil => cases hm
  | cons e es ih =>
      simp only [List.map_cons, List.nodup_cons] at hnd
      rcases List.mem_cons.mp hm with he | hes
      · subst he
        simp [lookupKey, List.find?]
      · by_cases hk : e.1 = k
        · exfalso
          apply hnd.1
          rw [hk]
          exact List.mem_map.mpr ⟨(k, ts, v), hes, rfl⟩
        · have := ih hnd.2 hes
          simp only [lookupKey, List.find?] at this ⊢
          have hbeq : (e.1 == k) = false := beq_eq_false_iff_ne.mpr hk
          rw [hbeq]
          exact this

theorem eraseKey_length_lt {V : Type} {l : List (String × Int × V)} {k : String}
    (h : ∃ e ∈ l, e.1 = k) : (eraseKey k l).length < l.length := by
  induction l with
  | nil => simp at h
  | cons e es ih =>
      rcases h with ⟨a, ha, hak⟩
      rcases List.mem_cons.mp ha with rfl | has
      · unfold eraseKey
        rw [List.filter_cons]
        have : (!(a.1 == k)) = false := by simp [hak]
        rw [this]
        simp only [if_neg (by simp : ¬ (false = true))]
        calc (List.filter (fun e => !(e.1 == k)) es).length
            ≤ es.length := List.length_filter_le _ _
          _ < (a :: es).length := by simp
      · by_cases hek : e.1 = k
        · unfold eraseKey
          rw [List.filter_cons]
          have : (!(e.1 == k)) = false := by simp [hek]
          rw [this]
          simp only [if_neg (by simp : ¬ (false = true))]
          calc (List.filter (fun x => !(x.1 == k)) es).length
              ≤ es.length := List.length_filter_le _ _
            _ < (e :: es).length := by simp
        · have ihh := ih ⟨a, has, hak⟩
          unfold eraseKey at ihh ⊢
          have hb : (!(e.1 == k)) = true := by simp [hek]
          simp [List.filter_cons, hb]
          omega

theorem evictLRU_eq_drop {E : Type} (m : Nat) :
    ∀ l : List E, evictLRU m l = l.drop (l.length - m) := by
  intro l
  induction l with
  | nil => simp [evictLRU]
  | cons e es ih =>
      unfold evictLRU
      by_cases h : (e :: es).length > m
      · rw [if_pos h, ih]
        have : (e :: es).length - m = (es.length - m) + 1 := by
          simp at h ⊢
          omega
        rw [this]
        rfl
      · rw [if_neg h]
        have : (e :: es).length - m = 0 := by
          simp at h ⊢
          omega
        rw [this]
        rfl

theorem evictLRU_length_le {E : Type} (m : Nat) (l : List E) :
    (evictLRU m l).length ≤ m := by
  rw [evictLRU_eq_drop, List.length_drop]
  omega

theorem cacheWF_get {V : Type} (c : TTLCache V) (now : Int) (k : String)
    (h : cacheWF c) : cacheWF (c.get now k).2 := by
  unfold cacheWF at h ⊢
  unfold TTLCache.get
  have herase : ((eraseKey k c.store).map (fun e => e.1)).Nodup := by
    unfold eraseKey
    have : (c.store.filter (fun e => !(e.1 == k))).Sublist c.store := List.filter_sublist _
    exact h.sublist (this.map _)
  have hout : ∀ x ∈ (eraseKey k c.store).map (fun e => e.1), ¬ x = k := by
    intro x hx hxk
    rcases List.mem_map.mp hx with ⟨e, he, hek⟩
    unfold eraseKey at he
    have := List.of_mem_filter he
    simp at this
    exact this (hxk ▸ hek)
  cases hlk : lookupKey k c.store with
  | none => exact h
  | some tv =>
      cases tv with
      | mk ts v =>
          dsimp only
          by_cases hexp : now - ts > c.ttl
          · rw [if_pos hexp]
            exact herase
          · rw [if_neg hexp]
            simp only [List.map_append]
            rw [List.nodup_append]
            refine ⟨herase, by simp, ?_⟩
            intro x hx hxk
            simp at hxk
            exact hout x hx hxk

theorem cacheWF_set {V : Type} (c : TTLCache V) (now : Int) (k : String) (v : V)
    (h : cacheWF c) : cacheWF (c.set now k v) := by
  unfold cacheWF at h ⊢
  unfold TTLCache.set
  have herase : ((eraseKey k c.store).map (fun e => e.1)).Nodup := by
    unfold eraseKey
    have : (c.store.filter (fun e => !(e.1 == k))).Sublist c.store := List.filter_sublist _
    exact h.sublist (this.map _)
  have hout : ∀ x ∈ (eraseKey k c.store).map (fun e => e.1), ¬ x = k := by
    intro x hx hxk
    rcases List.mem_map.mp hx with ⟨e, he, hek⟩
    unfold eraseKey at he
    have := List.of_mem_filter he
    simp at this
    exact this (hxk ▸ hek)
  have happ : (((eraseKey k c.store) ++ [(k, now, v)]).map (fun e => e.1)).Nodup := by
    simp only [List.map_append]
    rw [List.nodup_append]
    refine ⟨herase, by simp, ?_⟩
    intro x hx hxk
    simp at hxk
    exact hout x hx hxk
  rw [evictLRU_eq_drop]
  exact happ.sublist ((List.drop_sublist _ _).map _)

theorem lookupKey_some_mem {V : Type} {l : List (String × Int × V)} {k : String}
    {ts : Int} {v : V} (h : lookupKey k l = some (ts, v)) : ∃ e ∈ l, e.1 = k := by
  unfold lookupKey at h
  cases hf : l.find? (fun e => e.1 == k) with
  | none => rw [hf] at h; cases h
  | some e =>
      refine ⟨e, List.mem_of_find?_eq_some hf, ?_⟩
      have := List.find?_some hf
      simpa using this

theorem cacheSize_get_le {V : Type} (c : TTLCache V) (now : Int) (k : String) (n : Nat)
    (h : c.store.length ≤ n) : ((c.get now k).2).store.length ≤ n := by
  unfold TTLCache.get
  cases hlk : lookupKey k c.store with
  | none => exact h
  | some tv =>
      cases tv with
      | mk ts v =>
          dsimp only
          have hlt := eraseKey_length_lt (lookupKey_some_mem hlk)
          by_cases hexp : now - ts > c.ttl
          · rw [if_pos hexp]
            simp only
            omega
          · rw [if_neg hexp]
            simp only [List.length_append, List.length_cons, List.length_nil]
            omega

/-- Sizes after a whole session: at most `maxSize` slots at every point. -/
theorem runCacheOps_length_le {V : Type} (ttl : Int) (maxSize : Nat) :
    ∀ (ops : List (CacheOp V)) (c : TTLCache V), c.maxSize = maxSize →
      c.store.length ≤ maxSize →
      (ops.foldl applyCacheOp c).store.length ≤ maxSize ∧
      (ops.foldl applyCacheOp c).maxSize = maxSize := by
  intro ops
  induction ops with
  | nil => intro c hm hl; exact ⟨hl, hm⟩
  | cons op rest ih =>
      intro c hm hl
      simp only [List.foldl_cons]
      refine ih _ ?_ ?_
      · cases op with
        | get now k =>
            simp only [applyCacheOp, TTLCache.get]
            cases hlk : lookupKey k c.store with
            | none => exact hm
            | some tv => dsimp only; split <;> exact hm
        | set now k v => exact hm
        | clear => exact hm
      · cases op with
        | get now k => exact cacheSize_get_le c now k maxSize hl
        | set now k v =>
            simp only [applyCacheOp, TTLCache.set]
            rw [hm] at *
            exact evictLRU_length_le _ _
        | clear => simp [applyCacheOp, TTLCache.clear]

/-- C6: `get` hits a fresh slot iff it is present within TTL, moving it to
most-recently-used; an expired slot is evicted on `get`; `set` inserts at
most-recently-used and evicts from the least-recently-used end until the
size bound holds; and every session against a fresh cache keeps at most
`maxSize` slots after every operation. -/
theorem claim_C6 (V : Type) :
    (∀ (c : TTLCache V) (now : Int) (k : String) (ts : Int) (v : V), cacheWF c →
        (k, ts, v) ∈ c.store → now - ts ≤ c.ttl →
        c.get now k = (some v, ⟨c.ttl, c.maxSize, eraseKey k c.store ++ [(k, ts, v)]⟩)) ∧
    (∀ (c : TTLCache V) (now : Int) (k : String) (ts : Int) (v : V), cacheWF c →
        (k, ts, v) ∈ c.store → now - ts > c.ttl →
        c.get now k = (none, ⟨c.ttl, c.maxSize, eraseKey k c.store⟩)) ∧
    (∀ (c : TTLCache V) (now : Int) (k : String),
        lookupKey k c.store = none → c.get now k = (none, c)) ∧
    (∀ (c : TTLCache V) (now : Int) (k : String) (v : V),
        (c.set now k v).store = evictLRU c.maxSize (eraseKey k c.store ++ [(k, now, v)]) ∧
        (c.set now k v).store.length ≤ c.maxSize) ∧
    (∀ (ttl : Int) (maxSize : Nat) (ops : List (CacheOp V)),
        (runCacheOps ttl maxSize ops).store.length ≤ maxSize ∧
        cacheWF (runCacheOps ttl maxSize ops)) := by
  refine ⟨?_, ?_, ?_, ?_, ?_⟩
  · intro c now k ts v hwf hm hfresh
    unfold TTLCache.get
    rw [lookupKey_of_mem hwf hm]
    dsimp only
    rw [if_neg (by omega)]
  · intro c now k ts v hwf hm hexp
    unfold TTLCache.get
    rw [lookupKey_of_mem hwf hm]
    dsimp only
    rw [if_pos hexp]
  · intro c now k h
    unfold TTLCache.get
    rw [h]
  · intro c now k v
    exact ⟨rfl, evictLRU_length_le _ _⟩
  · intro ttl maxSize ops
    constructor
    · exact (runCacheOps_length_le ttl maxSize ops (emptyCache V ttl maxSize) rfl (by simp [emptyCache])).1
    · unfold runCacheOps
      have : ∀ (l : List (CacheOp V)) (c : TTLCache V), cacheWF c → cacheWF (l.foldl applyCacheOp c) := by
        intro l
        induction l with
        | nil => intro c hc; exact hc
        | cons op rest ih =>
            intro c hc
            simp only [List.foldl_cons]
            refine ih _ ?_
            cases op with
            | get now k => exact cacheWF_get c now k hc
            | set now k v => exact cacheWF_set c now k v hc
            | clear => simp [applyCacheOp, TTLCache.clear, cacheWF]
      exact this ops _ (by simp [emptyCache, cacheWF])

/-- C6, witness: a concrete session of two inserts and a fresh hit. -/
theorem claim_C6_witness :
    cacheWF (@runCacheOps Nat 300 2 [.set 0 "a" 1, .set 5 "b" 2]) ∧
    ("a", (0 : Int), 1) ∈ (@runCacheOps Nat 300 2 [.set 0 "a" 1, .set 5 "b" 2]).store ∧
    (@runCacheOps Nat 300 2 [.set 0 "a" 1, .set 5 "b" 2]).get 100 "a"
      = (some 1, ⟨300, 2, [("b", 5, 2), ("a", 0, 1)]⟩) ∧
    (@runCacheOps Nat 300 2 [.set 0 "a" 1, .set 5 "b" 2, .set 9 "c" 3]).store.length ≤ 2 := by
  refine ⟨by unfold cacheWF; decide, by decide, ?_,
    ((claim_C6 Nat).2.2.2.2 300 2 [.set 0 "a" 1, .set 5 "b" 2, .set 9 "c" 3]).1⟩
  have h := (claim_C6 Nat).1 (@runCacheOps Nat 300 2 [.set 0 "a" 1, .set 5 "b" 2])
    100 "a" 0 1 (by unfold cacheWF; decide) (by decide) (by decide)
  exact h.trans rfl

/-! ### Digit and character lemmas (shared by C7 and C8) -/

theorem char_ne_of_toNat {c d : Char} (h : c.toNat ≠ d.toNat) : (c == d) = false :=
  beq_eq_false_iff_ne.mpr (fun e => h (congrArg Char.toNat e))

theorem isDig_bounds {c : Char} (h : isDig c = true) : 48 ≤ c.toNat ∧ c.toNat ≤ 57 := by
  simpa [isDig] using h

theorem isDig_ne_sign {c : Char} (h : isDig c = true) :
    (c == '-') = false ∧ (c == '+') = false ∧ (c == '.') = false ∧
    (c == 'e') = false ∧ (c == 'E') = false := by
  have hb := isDig_bounds h
  refine ⟨?_, ?_, ?_, ?_, ?_⟩ <;> (apply char_ne_of_toNat; intro he; rw [he] at hb) <;>
    revert hb <;> decide

theorem isDig_not_ws {c : Char} (h : isDig c = true) :
    isJsWs c = false ∧ isPySpace c = false := by
  have hb := isDig_bounds h
  constructor
  · unfold isJsWs
    have h1 : (c == ' ') = false := by
      apply char_ne_of_toNat; intro he; rw [he] at hb; revert hb; decide
    have h2 : (c == '\t') = false := by
      apply char_ne_of_toNat; intro he; rw [he] at hb; revert hb; decide
    have h3 : (c == '\n') = false := by
      apply char_ne_of_toNat; intro he; rw [he] at hb; revert hb; decide
    have h4 : (c == '\r') = false := by
      apply char_ne_of_toNat; intro he; rw [he] at hb; revert hb; decide
    simp [h1, h2, h3, h4]
  · unfold isPySpace
    have h1 : (c == ' ') = false := by
      apply char_ne_of_toNat; intro he; rw [he] at hb; revert hb; decide
    have h2 : (c == '\t') = false := by
      apply char_ne_of_toNat; intro he; rw [he] at hb; revert hb; decide
    have h3 : (c == '\n') = false := by
      apply char_ne_of_toNat; intro he; rw [he] at hb; revert hb; decide
    have h4 : (c == '\r') = false := by
      apply char_ne_of_toNat; intro he; rw [he] at hb; revert hb; decide
    have h5 : (c == '\x0b') = false := by
      apply char_ne_of_toNat; intro he; rw [he] at hb; revert hb; decide
    have h6 : (c == '\x0c') = false := by
      apply char_ne_of_toNat; intro he; rw [he] at hb; revert hb; decide
    simp [h1, h2, h3, h4, h5, h6]

theorem isDig_ne_delims {c : Char} (h : isDig c = true) :
    (c == '"') = false ∧ (c == '[') = false ∧ (c == '{') = false ∧
    (c == ']') = false ∧ (c == '}') = false ∧ (c == ',') = false ∧
    (c == 'n') = false ∧ (c == 't') = false ∧ (c == 'f') = false := by
  have hb := isDig_bounds h
  refine ⟨?_, ?_, ?_, ?_, ?_, ?_, ?_, ?_, ?_⟩ <;>
    (apply char_ne_of_toNat; intro he; rw [he] at hb) <;> revert hb <;> decide

theorem digitSpan_stop {l : List Char}
    (h : ∀ c, l.head? = some c → isDig c = false) : digitSpan l = ([], l) := by
  cases l with
  | nil => rfl
  | cons c cs =>
      unfold digitSpan
      rw [h c rfl]
      simp

theorem digitSpan_run {ds : List Char} (rest : List Char)
    (hds : ∀ c ∈ ds, isDig c = true) (hrest : digitSpan rest = ([], rest)) :
    digitSpan (ds ++ rest) = (ds, rest) := by
  induction ds with
  | nil => simpa using hrest
  | cons c cs ih =>
      have hc : isDig c = true := hds c (by simp)
      have hcs := ih (fun x hx => hds x (by simp [hx]))
      rw [List.cons_append]
      simp only [digitSpan, hc, if_true]
      simp [hcs]

theorem digitsVal_fold (l : List Char) :
    ∀ acc : Nat, l.foldl (fun a c => a * 10 + (c.toNat - '0'.toNat)) acc
      = acc * 10 ^ l.length + digitsVal l := by
  induction l with
  | nil => intro acc; simp [digitsVal]
  | cons c cs ih =>
      intro acc
      have h1 := ih (acc * 10 + (c.toNat - '0'.toNat))
      have h2 := ih (0 * 10 + (c.toNat - '0'.toNat))
      simp only [digitsVal, List.foldl_cons] at h1 h2 ⊢
      rw [h1, h2]
      simp [pow_succ]
      ring

theorem digitsVal_append (a b : List Char) :
    digitsVal (a ++ b) = digitsVal a * 10 ^ b.length + digitsVal b := by
  unfold digitsVal
  rw [List.foldl_append]
  rw [digitsVal_fold b (List.foldl _ 0 a)]
  rfl

theorem digit_char_spec (d : Nat) (h : d < 10) :
    isDig (Char.ofNat ('0'.toNat + d)) = true ∧
    (Char.ofNat ('0'.toNat + d)).toNat - '0'.toNat = d := by
  interval_cases d <;> exact ⟨by decide, by decide⟩

theorem natCharsF_zero (f : Nat) : natCharsF f 0 = ['0'] := by
  cases f with
  | zero => rfl
  | succ f =>
      unfold natCharsF
      rw [if_pos (by omega)]
      rfl

theorem natCharsF_congr : ∀ n f1 f2, n ≤ f1 → n ≤ f2 → natCharsF f1 n = natCharsF f2 n := by
  intro n
  induction n using Nat.strongRecOn with
  | _ n ih =>
      intro f1 f2 h1 h2
      cases f1 with
      | zero =>
          have hn : n = 0 := Nat.le_zero.mp h1
          subst hn
          rw [natCharsF_zero, natCharsF_zero]
      | succ f1 =>
          cases f2 with
          | zero =>
              have hn : n = 0 := Nat.le_zero.mp h2
              subst hn
              rw [natCharsF_zero, natCharsF_zero]
          | succ f2 =>
              unfold natCharsF
              by_cases h : n < 10
              · rw [if_pos h, if_pos h]
              · rw [if_neg h, if_neg h]
                have hd : n / 10 < n := Nat.div_lt_self (by omega) (by omega)
                rw [ih (n / 10) hd f1 f2 (by omega) (by omega)]

theorem natChars_eq (n : Nat) :
    natChars n = if n < 10 then [Char.ofNat ('0'.toNat + n)]
    else natChars (n / 10) ++ [Char.ofNat ('0'.toNat + n % 10)] := by
  unfold natChars
  by_cases h : n < 10
  · rw [if_pos h]
    cases n with
    | zero => rfl
    | succ m =>
        unfold natCharsF
        rw [if_pos h]
  · rw [if_neg h]
    obtain ⟨m, rfl⟩ : ∃ m, n = m + 1 := ⟨n - 1, by omega⟩
    have hl : natCharsF (m + 1) (m + 1) = if m + 1 < 10 then [Char.ofNat ('0'.toNat + (m + 1))]
        else natCharsF m ((m + 1) / 10) ++ [Char.ofNat ('0'.toNat + (m + 1) % 10)] := rfl
    rw [hl, if_neg h]
    congr 1
    exact natCharsF_congr ((m + 1) / 10) m ((m + 1) / 10) (by omega) (le_refl _)

theorem natChars_ne_nil (n : Nat) : natChars n ≠ [] := by
  rw [natChars_eq n]
  split <;> simp

theorem natChars_digits (n : Nat) : ∀ c ∈ natChars n, isDig c = true := by
  induction n using Nat.strongRecOn with
  | _ n ih =>
      rw [natChars_eq n]
      by_cases h : n < 10
      · rw [if_pos h]
        intro c hc
        simp at hc
        rw [hc]
        exact (digit_char_spec n h).1
      · rw [if_neg h]
        intro c hc
        rcases List.mem_append.mp hc with h1 | h2
        · exact ih (n / 10) (Nat.div_lt_self (by omega) (by omega)) c h1
        · simp at h2
          rw [h2]
          exact (digit_char_spec (n % 10) (Nat.mod_lt _ (by omega))).1

theorem digitsVal_natChars (n : Nat) : digitsVal (natChars n) = n := by
  induction n using Nat.strongRecOn with
  | _ n ih =>
      rw [natChars_eq n]
      by_cases h : n < 10
      · rw [if_pos h]
        unfold digitsVal
        simp only [List.foldl_cons, List.foldl_nil, Nat.zero_mul, Nat.zero_add]
        exact (digit_char_spec n h).2
      · rw [if_neg h]
        rw [digitsVal_append]
        rw [ih (n / 10) (Nat.div_lt_self (by omega) (by omega))]
        unfold digitsVal
        have hc := (digit_char_spec (n % 10) (Nat.mod_lt _ (by omega))).2
        simp only [List.foldl_cons, List.foldl_nil, Nat.zero_mul, Nat.zero_add,
          List.length_cons, List.length_nil, pow_one, pow_zero] at hc ⊢
        simp only [show Char.toNat '0' = 48 from rfl] at hc ⊢
        omega

theorem digitsVal_replicate_zero (k : Nat) (b : List Char) :
    digitsVal (List.replicate k '0' ++ b) = digitsVal b := by
  rw [digitsVal_append]
  have : digitsVal (List.replicate k '0') = 0 := by
    induction k with
    | zero => rfl
    | succ m ihm =>
        rw [List.replicate_succ]
        unfold digitsVal at ihm ⊢
        simpa using ihm
  rw [this]
  simp

theorem dropLeading_all_false {p : Char → Bool} {l : List Char}
    (h : ∀ c ∈ l, p c = false) : dropLeading p l = l := by
  cases l with
  | nil => rfl
  | cons c cs =>
      unfold dropLeading
      rw [h c (by simp)]
      simp

theorem pyStripL_all_not {l : List Char} (h : ∀ c ∈ l, isPySpace c = false) :
    pyStripL l = l := by
  unfold pyStripL dropTrailing
  rw [dropLeading_all_false h, dropLeading_all_false (fun c hc => h c (List.mem_reverse.mp hc))]
  simp

theorem pyFloatOfString_digits {ds : List Char} (hne : ds ≠ [])
    (hds : ∀ c ∈ ds, isDig c = true) :
    pyFloatOfString ⟨ds⟩ = some (digitsVal ds) := by
  cases ds with
  | nil => exact absurd rfl hne
  | cons c cs =>
      have hc := hds c (by simp)
      have hsig := isDig_ne_sign hc
      have hspan : digitSpan (c :: cs) = (c :: cs, []) := by
        simpa using @digitSpan_run (c :: cs) [] hds rfl
      have hm : ((String.mk (c :: cs)).toList.head? == some '-') = false := hsig.1
      have hp : ((String.mk (c :: cs)).toList.head? == some '+') = false := hsig.2.1
      unfold pyFloatOfString
      simp only [hm, hp, Bool.or_self, Bool.false_eq_true, if_false]
      rw [show (String.mk (c :: cs)).toList = c :: cs from rfl, hspan]
      simp

theorem coerceValues_none_of_mem {vals : List JValue} {v : JValue}
    (hm : v ∈ vals) (hv : coerceChartValue v = none) : coerceValues vals = none := by
  induction vals with
  | nil => cases hm
  | cons w ws ih =>
      rcases List.mem_cons.mp hm with rfl | hws
      · unfold coerceValues
        rw [hv]
      · unfold coerceValues
        cases hw : coerceChartValue w with
        | none => rfl
        | some q => rw [ih hws]

theorem filter_seps_eq {ds : List Char}
    (hclass : ∀ c ∈ ds, isDig c = true ∨ c = ',' ∨ c = ' ') :
    ds.filter (fun c => !(c == ',' || c == '.' || c == ' ')) = ds.filter isDig := by
  apply List.filter_congr
  intro c hcm
  rcases hclass c hcm with hd | rfl | rfl
  · have hb := isDig_bounds hd
    have h1 : (c == ',') = false := by
      apply char_ne_of_toNat; intro he; rw [he] at hb; revert hb; decide
    have h2 : (c == '.') = false := by
      apply char_ne_of_toNat; intro he; rw [he] at hb; revert hb; decide
    have h3 : (c == ' ') = false := by
      apply char_ne_of_toNat; intro he; rw [he] at hb; revert hb; decide
    simp [h1, h2, h3, hd]
  · decide
  · decide

/-- C8, counterexample: the string `"1.5"` denotes the float `1.5`, but the
coercion deletes the decimal point along with the thousand separators and
produces `15.0`. -/
theorem claim_C8_counterexample :
    pyFloatOfString "1.5" = some (3 / 2 : ℚ) ∧
    coerceChartValue (.jstr "1.5") = some 15 ∧ ((15 : ℚ) ≠ 3 / 2) := by
  refine ⟨?_, ?_, by norm_num⟩
  · show some _ = _
    norm_num [show (['1'] ++ ['5'] : List Char) = ['1', '5'] from rfl,
      show digitsVal ['1', '5'] = 15 from rfl, show ('1' = '-') = False from by decide]
  · show pyFloatOfString (pyStrip (stripSeps "1.5")) = _
    rw [show pyStrip (stripSeps "1.5") = "15" from rfl]
    show some _ = _
    norm_num [show (['1', '5'] ++ [] : List Char) = ['1', '5'] from rfl,
      show digitsVal ['1', '5'] = 15 from rfl, show ('1' = '-') = False from by decide]

/-- C8, amended: `generate_chart` renders nothing (result absent, no
exception) when `categories` or `values` is empty or their lengths differ,
and when any value fails coercion; a value supplied as a string is coerced by
deleting every comma, period and space and reading the remainder as a float —
so a digit string with comma or space thousand separators coerces to exactly
the integer its digits denote, while a decimal point is deleted rather than
honoured. -/
theorem claim_C8 :
    (∀ (data : List (String × JValue)) (ct : String) (render : Nat → Option String)
        (cats vals : List JValue),
        jGet data "categories" (.jarr []) = .jarr cats →
        jGet data "values" (.jarr []) = .jarr vals →
        (cats = [] ∨ vals = [] ∨ cats.length ≠ vals.length) →
        generate_chart data ct render = .ok none) ∧
    (∀ (data : List (String × JValue)) (ct : String) (render : Nat → Option String)
        (cats vals : List JValue) (v : JValue),
        jGet data "categories" (.jarr []) = .jarr cats →
        jGet data "values" (.jarr []) = .jarr vals →
        cats.length = vals.length →
        v ∈ vals → coerceChartValue v = none →
        generate_chart data ct render = .ok none) ∧
    (∀ s : String, coerceChartValue (.jstr s) = pyFloatOfString (pyStrip (stripSeps s))) ∧
    (∀ ds : List Char, (∀ c ∈ ds, isDig c = true ∨ c = ',' ∨ c = ' ') →
        ds.filter isDig ≠ [] →
        coerceChartValue (.jstr ⟨ds⟩) = some (digitsVal (ds.filter isDig))) := by
  refine ⟨?_, ?_, fun s => rfl, ?_⟩
  · intro data ct render cats vals hc hv hbad
    simp only [generate_chart, hc, hv]
    by_cases hct : (ct == "none" || ct == "table") = true
    · rw [if_pos hct]
    · rw [if_neg hct]
      rcases hbad with rfl | rfl | hlen
      · rw [if_pos (by simp [JValue.truthy])]
      · rw [if_pos (by simp [JValue.truthy])]
      · by_cases hce : cats.isEmpty
        · rw [if_pos (by simp [JValue.truthy, hce])]
        · by_cases hve : vals.isEmpty
          · rw [if_pos (by simp [JValue.truthy, hce, hve])]
          · rw [if_neg (by simp [JValue.truthy, hce, hve])]
            simp only [jLen]
            rw [if_pos hlen]
  · intro data ct render cats vals v hc hv hlen hm hcoerce
    simp only [generate_chart, hc, hv]
    by_cases hct : (ct == "none" || ct == "table") = true
    · rw [if_pos hct]
    · rw [if_neg hct]
      by_cases hce : cats.isEmpty
      · rw [if_pos (by simp [JValue.truthy, hce])]
      · by_cases hve : vals.isEmpty
        · rw [if_pos (by simp [JValue.truthy, hce, hve])]
        · rw [if_neg (by simp [JValue.truthy, hce, hve])]
          simp only [jLen]
          rw [if_neg (by simp [hlen])]
          simp only [jIter]
          rw [coerceValues_none_of_mem hm hcoerce]
  · intro ds hclass hfil
    have heq := filter_seps_eq hclass
    have hdig : ∀ c ∈ ds.filter isDig, isDig c = true := fun c hc => (List.mem_filter.mp hc).2
    have hstrip : pyStripL (ds.filter isDig) = ds.filter isDig :=
      pyStripL_all_not (fun c hc => (isDig_not_ws (hdig c hc)).2)
    show pyFloatOfString (pyStrip (stripSeps ⟨ds⟩)) = _
    have h1 : stripSeps ⟨ds⟩ = ⟨ds.filter isDig⟩ := by
      unfold stripSeps
      rw [show (String.mk ds).toList = ds from rfl, heq]
    rw [h1]
    have h2 : pyStrip ⟨ds.filter isDig⟩ = ⟨ds.filter isDig⟩ := by
      unfold pyStrip
      rw [show (String.mk (ds.filter isDig)).toList = ds.filter isDig from rfl, hstrip]
    rw [h2]
    exact pyFloatOfString_digits hfil hdig

/-- C8, witness: the amended statement at concrete inputs — a mismatched
pair, a failing coercion, and the separator-tolerant integer case. -/
theorem claim_C8_witness :
    generate_chart [("categories", .jarr [.jstr "a"]), ("values", .jarr [.jnum 1 0, .jnum 2 0])]
      "bar" (fun _ => some "PNG") = .ok none ∧
    generate_chart [("categories", .jarr [.jstr "a"]), ("values", .jarr [.jstr "x"])]
      "bar" (fun _ => some "PNG") = .ok none ∧
    coerceChartValue (.jstr "5,000,000") = some (digitsVal ("5,000,000".toList.filter isDig)) ∧
    digitsVal ("5,000,000".toList.filter isDig) = 5000000 := by
  refine ⟨?_, ?_, ?_, by decide⟩
  · exact claim_C8.1 _ "bar" _ [.jstr "a"] [.jnum 1 0, .jnum 2 0] rfl rfl
      (Or.inr (Or.inr (by decide)))
  · exact claim_C8.2.1 _ "bar" _ [.jstr "a"] [.jstr "x"] (.jstr "x") rfl rfl rfl
      (List.mem_singleton.mpr rfl) rfl
  · exact claim_C8.2.2.2 "5,000,000".toList (by decide) (by decide)

/-- C9, counterexample: in the terminal state of a quantitative run whose
analyzer produced no chart and empty insights, `quant_insights` is set (to the
empty string), yet the wire response's `quant_analysis` is null — Python
truthiness, not presence, drives the builder. -/
theorem claim_C9_counterexample :
    termQuant.quant_insights = some "" ∧
    (build_query_response termQuant).agent_metadata.quant_analysis = none := by
  constructor
  · rfl
  · rfl

/-- C9, amended: `quant_analysis` is non-null iff `quant_chart` or
`quant_insights` is truthy (non-null and nonempty), and `risk_assessment` is
non-null iff `risk_level` is truthy — a set-but-empty field counts as absent. -/
theorem claim_C9 (s : AgentState) :
    (build_query_response s).agent_metadata.quant_analysis.isSome =
      (truthyOptStr s.quant_chart || truthyOptStr s.quant_insights) ∧
    (build_query_response s).agent_metadata.risk_assessment.isSome =
      truthyOptStr s.risk_level := by
  unfold build_query_response
  dsimp only
  constructor
  · by_cases h : (truthyOptStr s.quant_chart || truthyOptStr s.quant_insights) = true <;>
      simp [h]
  · by_cases h : truthyOptStr s.risk_level = true <;> simp [h]

/-- C9, witness: the amended statement at the quantitative terminal state. -/
theorem claim_C9_witness :
    (build_query_response termQuant).agent_metadata.quant_analysis.isSome =
      (truthyOptStr termQuant.quant_chart || truthyOptStr termQuant.quant_insights) ∧
    (build_query_response termQuant).agent_metadata.risk_assessment.isSome =
      truthyOptStr termQuant.risk_level :=
  claim_C9 termQuant

/-! ### C3: the NO_GO override -/

theorem round2_le (q : ℚ) : round2 q ≤ q + 1 / 100 := by
  unfold round2
  dsimp only
  have hfl : (q * 100).floor = ⌊q * 100⌋ := rfl
  have hf : (⌊q * 100⌋ : ℚ) ≤ q * 100 := Int.floor_le _
  rw [hfl]
  split_ifs <;> (push_cast; linarith)

theorem calculate_no_go_lt70 (inputs : List RiskFactorInput)
    (hie : inputs.isEmpty = false)
    (hng : (calculate inputs).recommendation = .no_go) :
    (calculate inputs).total_score < 70 := by
  unfold calculate at hng ⊢
  rw [hie] at hng ⊢
  simp only [Bool.false_eq_true, if_false] at hng ⊢
  cases hk : (inputs.filter (fun r => r.severity == .critical)).isEmpty with
  | false =>
      simp only [Bool.not_false, if_true]
      norm_num
  | true =>
      simp only [Bool.not_true, Bool.false_eq_true, if_false]
      rw [hk] at hng
      simp only [Bool.not_true, Bool.false_eq_true, if_false] at hng
      set raw := max 0 (100 -
        (List.map (fun r => sevWeight r.severity * r.probability) inputs).sum) with hraww
      have hraw : raw < 40 := by
        by_contra hge
        push_neg at hge
        unfold determineRecommendation at hng
        rcases le_or_lt 70 raw with h70 | h70
        · rw [if_pos h70] at hng
          by_cases hhc : (inputs.filter (fun r => r.severity == .high)).length > 0 <;>
            simp [hhc] at hng
        · rw [if_neg (not_le.mpr h70), if_pos hge] at hng
          simp at hng
      have hr := round2_le raw
      linarith

theorem skillStep_no_go (fields : List (String × JValue)) (r0 c0 i0 g0 : JValue)
    (items : List JValue)
    (hrf : jGet fields "risk_factors" (.jarr []) = .jarr items)
    (hie : (items.filterMap convertFactor).isEmpty = false)
    (hng : (calculate (items.filterMap convertFactor)).recommendation = .no_go)
    (hlt70 : (calculate (items.filterMap convertFactor)).total_score < 70) :
    ∃ i', skillStep fields r0 c0 i0 g0 =
      (.jstr (if (calculate (items.filterMap convertFactor)).total_score < 40
              then "critical" else "high"),
       .jstr "rejected", i', .jbool false) := by
  unfold skillStep
  rw [hrf]
  dsimp only
  rw [hie]
  simp only [Bool.false_eq_true, if_false]
  rw [hng]
  dsimp only
  rw [if_pos hlt70]
  cases i0 with
  | jarr l => exact ⟨_, rfl⟩
  | jnull => exact ⟨_, rfl⟩
  | jbool b => exact ⟨_, rfl⟩
  | jnum m e => exact ⟨_, rfl⟩
  | jstr t => exact ⟨_, rfl⟩
  | jobj kvs => exact ⟨_, rfl⟩

set_option maxRecDepth 20000 in
/-- C3, counterexample: four HIGH factors at probability one and one LOW at
probability `2 ^ (-10)` score `39.998046875` unrounded — recommendation
NO_GO — but round to exactly `40.0`, so the demotion chain leaves
`risk_level = "high"`: the override does reject, yet the claimed
`risk_level = "critical"` fails. -/
theorem claim_C3_counterexample :
    riskAudit longAnswer [okDoc] "q" (.ok cxContent) =
      ("high", "rejected", ["[RiskScore] Score: 40.0/100. Rec: NO_GO"], .jbool false) ∧
    "high" ≠ "critical" := ⟨by rfl, by decide⟩

/-- C3, amended: against an audited answer that escapes the short-circuit
gates, when the LLM reply decodes to an object carrying at least one
well-formed risk factor, the scorer recommends NO_GO and the issue filter
does not raise, `risk_audit` returns `compliance_status = "rejected"` and
`gate_passed = false` regardless of the LLM-reported values, and
`risk_sentinel_node` emits `audit_result = "fail"` — but the returned
`risk_level` is `"critical"` only when the rounded score is below `40`, and
`"high"` otherwise. -/
theorem claim_C3
    (answer question content : String) (docs : List Doc)
    (fields : List (String × JValue)) (items : List JValue) (issuesF : List String)
    (hlen : 50 ≤ answer.length)
    (herr : containsSub (pyLower answer) "error" = false)
    (hnd : containsSub (pyLower answer) "no hay documentos" = false)
    (hp : parse_json_response content = some (.jobj fields))
    (htr : (JValue.jobj fields).truthy = true)
    (hkey : jHasKey fields "risk_factors" = true)
    (hrf : jGet fields "risk_factors" (.jarr []) = .jarr items)
    (hie : (items.filterMap convertFactor).isEmpty = false)
    (hng : (calculate (items.filterMap convertFactor)).recommendation = .no_go)
    (hfil : pyFilterIssues (skillStep fields (jGet fields "risk_level" (.jstr "medium"))
        (jGet fields "compliance_status" (.jstr "approved")) (jGet fields "issues" (.jarr []))
        (jGet fields "gate_passed" (.jbool true))).2.2.1 = .ok issuesF) :
    riskAudit answer docs question (.ok content) =
      ((if (calculate (items.filterMap convertFactor)).total_score < 40
        then "critical" else "high"),
       "rejected", issuesF, .jbool false) ∧
    (∀ s : AgentState, s.answer = answer →
      (riskSentinelNode (.ok content) s).audit_result = some "fail") := by
  have hlt70 := calculate_no_go_lt70 _ hie hng
  obtain ⟨i', hss⟩ := skillStep_no_go fields
    (jGet fields "risk_level" (.jstr "medium"))
    (jGet fields "compliance_status" (.jstr "approved"))
    (jGet fields "issues" (.jarr []))
    (jGet fields "gate_passed" (.jbool true)) items hrf hie hng hlt70
  rw [hss] at hfil
  dsimp only at hfil
  have key : ∀ (d : List Doc) (q : String),
      riskAudit answer d q (.ok content) =
        ((if (calculate (items.filterMap convertFactor)).total_score < 40
          then "critical" else "high"),
         "rejected", issuesF, .jbool false) := by
    intro d q
    have hc1 : (answer.length < 50 || containsSub (pyLower answer) "error") = false := by
      rw [herr]
      simp only [Bool.or_false, decide_eq_false_iff_not, Nat.not_lt]
      exact hlen
    unfold riskAudit
    rw [hc1]
    simp only [Bool.false_eq_true, if_false]
    rw [hnd]
    simp only [Bool.false_eq_true, if_false]
    rw [hp]
    dsimp only
    rw [htr]
    simp only [Bool.not_true, Bool.false_eq_true, if_false]
    rw [hkey]
    simp only [if_true]
    rw [hss]
    dsimp only
    rw [hfil]
    dsimp only
    by_cases hsc : (calculate (items.filterMap convertFactor)).total_score < 40
    · rw [if_pos hsc]
      rfl
    · rw [if_neg hsc]
      rfl
  refine ⟨key docs question, fun s hs => ?_⟩
  unfold riskSentinelNode
  rw [hs, key (getDocs s) s.question]
  rfl

set_option maxRecDepth 8000 in
/-- C3, witness: the kill-switch reply — score `0`, so the level is
`"critical"` here — with the override and the failed audit. -/
theorem claim_C3_witness :
    riskAudit longAnswer [okDoc] "q" (.ok wContent) =
      ("critical", "rejected",
       ["[RiskScore] Score: 0.0/100. Rec: NO_GO",
        "[RiskScore] KILL SWITCH ACTIVATED: Kill Switch activado: 1 riesgo(s) CR\u00cdTICO(s) detectado(s). La propuesta no es viable."],
       .jbool false) ∧
    (riskSentinelNode (.ok wContent)
        { createInitialState "q" "t" with answer := longAnswer }).audit_result = some "fail" := by
  have h := claim_C3 longAnswer "q" wContent [okDoc]
    [("risk_factors", .jarr [.jobj [("severity", .jstr "critical"), ("probability", .jnum 10 1)]]),
     ("issues", .jarr [])]
    [.jobj [("severity", .jstr "critical"), ("probability", .jnum 10 1)]]
    ["[RiskScore] Score: 0.0/100. Rec: NO_GO",
     "[RiskScore] KILL SWITCH ACTIVATED: Kill Switch activado: 1 riesgo(s) CR\u00cdTICO(s) detectado(s). La propuesta no es viable."]
    (by decide) rfl rfl rfl rfl rfl rfl rfl rfl rfl
  exact ⟨h.1.trans rfl, h.2 _ rfl⟩

/-! ### C10: the synthetic score entry -/

theorem prefixB_mono {p l : List Char} (m : List Char) (h : prefixB p l = true) :
    prefixB p (l ++ m) = true := by
  induction p generalizing l with
  | nil => rfl
  | cons c cs ih =>
      cases l with
      | nil => simp [prefixB] at h
      | cons d ds =>
          simp only [prefixB, Bool.and_eq_true] at h
          simp only [List.cons_append, prefixB, Bool.and_eq_true]
          exact ⟨h.1, ih h.2⟩

theorem prefixB_ne_head {p c : Char} (ps cs : List Char) (h : (p == c) = false) :
    prefixB (p :: ps) (c :: cs) = false := by
  simp [prefixB, h]

theorem scoreEntry_head (a : RiskAssessmentOutput) :
    ∃ t, (scoreEntry a).toList = '[' :: t := ⟨_, rfl⟩

theorem killEntry_head (a : RiskAssessmentOutput) :
    ∃ t, (killEntry a).toList = '[' :: t := ⟨_, rfl⟩

theorem scoreEntry_starts (a : RiskAssessmentOutput) :
    pyStartsWith (scoreEntry a) "[RiskScore] Score:" = true := by
  unfold pyStartsWith
  have h0 : (scoreEntry a).toList = (("[RiskScore] Score: ".toList ++
      (qRepr2 a.total_score).toList) ++ "/100. Rec: ".toList) ++
      (recValue a.recommendation).toList := rfl
  rw [h0, List.append_assoc, List.append_assoc]
  exact prefixB_mono _ (by decide)

theorem str_ne_empty_of_head {s : String} {c : Char} {t : List Char}
    (h : s.toList = c :: t) : s.isEmpty = false := by
  cases he : s.isEmpty with
  | false => rfl
  | true =>
      have h0 := (String.isEmpty_iff _).mp he
      rw [h0] at h
      exact List.noConfusion h

theorem not_lista_of_bracket {s : String} {t : List Char}
    (h : s.toList = '[' :: t) : pyStartsWith s "Lista SOLO" = false := by
  unfold pyStartsWith
  rw [h]
  show prefixB ('L' :: "ista SOLO".toList) _ = false
  exact prefixB_ne_head _ _ (by decide)

theorem filterIssuesList_cons_str (s : String) (rest : List JValue) :
    filterIssuesList (.jstr s :: rest) =
      if s.isEmpty = true then filterIssuesList rest
      else if pyStartsWith s "Lista SOLO" = true then filterIssuesList rest
      else (filterIssuesList rest).map (fun t => s :: t) := rfl

theorem filterIssuesList_cons_other (v : JValue) (rest : List JValue)
    (hv : ∀ s, v ≠ .jstr s) :
    filterIssuesList (v :: rest) =
      if v.truthy = true then .error "AttributeError" else filterIssuesList rest := by
  cases v with
  | jstr s => exact absurd rfl (hv s)
  | jnull => rfl
  | jbool b => rfl
  | jnum m e => rfl
  | jarr l => rfl
  | jobj kvs => rfl

theorem filterIssuesList_append_ok {l1 : List JValue} {f1 : List String}
    (h : filterIssuesList l1 = .ok f1) (l2 : List JValue) :
    filterIssuesList (l1 ++ l2) = (filterIssuesList l2).map (fun t => f1 ++ t) := by
  induction l1 generalizing f1 with
  | nil =>
      obtain rfl : ([] : List String) = f1 := by injection h
      rw [List.nil_append]
      cases filterIssuesList l2 <;> simp [Except.map]
  | cons v rest ih =>
      rw [List.cons_append]
      cases v with
      | jstr s =>
          rw [filterIssuesList_cons_str] at h ⊢
          by_cases hs : s.isEmpty = true
          · rw [if_pos hs] at h ⊢
            exact ih h
          · rw [if_neg hs] at h ⊢
            by_cases hl : pyStartsWith s "Lista SOLO" = true
            · rw [if_pos hl] at h ⊢
              exact ih h
            · rw [if_neg hl] at h ⊢
              cases hr : filterIssuesList rest with
              | error e =>
                  rw [hr] at h
                  exact absurd h (by simp [Except.map])
              | ok fr =>
                  rw [hr] at h
                  simp only [Except.map] at h
                  obtain rfl : s :: fr = f1 := by injection h
                  rw [ih hr]
                  cases filterIssuesList l2 <;> simp [Except.map]
      | jnull =>
          rw [filterIssuesList_cons_other _ _ (by intro t ht; exact JValue.noConfusion ht)] at h ⊢
          rw [if_neg (by decide)] at h ⊢
          exact ih h
      | jbool b =>
          rw [filterIssuesList_cons_other _ _ (by intro t ht; exact JValue.noConfusion ht)] at h ⊢
          by_cases ht : JValue.truthy (.jbool b) = true
          · rw [if_pos ht] at h
            exact absurd h (by simp)
          · rw [if_neg ht] at h ⊢
            exact ih h
      | jnum m e =>
          rw [filterIssuesList_cons_other _ _ (by intro t ht; exact JValue.noConfusion ht)] at h ⊢
          by_cases ht : JValue.truthy (.jnum m e) = true
          · rw [if_pos ht] at h
            exact absurd h (by simp)
          · rw [if_neg ht] at h ⊢
            exact ih h
      | jarr l =>
          rw [filterIssuesList_cons_other _ _ (by intro t ht; exact JValue.noConfusion ht)] at h ⊢
          by_cases ht : JValue.truthy (.jarr l) = true
          · rw [if_pos ht] at h
            exact absurd h (by simp)
          · rw [if_neg ht] at h ⊢
            exact ih h
      | jobj kvs =>
          rw [filterIssuesList_cons_other _ _ (by intro t ht; exact JValue.noConfusion ht)] at h ⊢
          by_cases ht : JValue.truthy (.jobj kvs) = true
          · rw [if_pos ht] at h
            exact absurd h (by simp)
          · rw [if_neg ht] at h ⊢
            exact ih h

theorem filterIssuesList_single_good {s : String} (hs : s.isEmpty = false)
    (hl : pyStartsWith s "Lista SOLO" = false) :
    filterIssuesList [.jstr s] = .ok [s] := by
  unfold filterIssuesList
  rw [if_neg (by simp [hs]), if_neg (by simp [hl])]
  rfl

theorem validateEnum_risk_ne (v : JValue) :
    validateEnum v ["low", "medium", "high", "critical"] "medium" ≠ "" := by
  unfold validateEnum
  cases v with
  | jstr s =>
      dsimp only
      by_cases hc : (["low", "medium", "high", "critical"].contains s) = true
      · rw [if_pos hc]
        simp at hc
        rcases hc with rfl | rfl | rfl | rfl <;> decide
      · rw [if_neg hc]
        decide
  | jnull => dsimp only; decide
  | jbool b => dsimp only; decide
  | jnum m e => dsimp only; decide
  | jarr l => dsimp only; decide
  | jobj kvs => dsimp only; decide

theorem skillStep_ran (fields : List (String × JValue)) (r0 c0 g0 : JValue)
    (items : List JValue) (l0 : List JValue)
    (hrf : jGet fields "risk_factors" (.jarr []) = .jarr items)
    (hie : (items.filterMap convertFactor).isEmpty = false) :
    ∃ (rj cj : JValue) (gb : Bool),
      skillStep fields r0 c0 (.jarr l0) g0 =
        (rj, cj,
         .jarr (l0 ++ [.jstr (scoreEntry (calculate (items.filterMap convertFactor)))]
           ++ (if (calculate (items.filterMap convertFactor)).kill_switch_activated
               then [.jstr (killEntry (calculate (items.filterMap convertFactor)))] else [])),
         .jbool gb) := by
  unfold skillStep
  rw [hrf]
  dsimp only
  rw [hie]
  simp only [Bool.false_eq_true, if_false]
  cases hrec : (calculate (items.filterMap convertFactor)).recommendation with
  | go => exact ⟨_, _, _, rfl⟩
  | review => exact ⟨_, _, _, rfl⟩
  | no_go => exact ⟨_, _, _, rfl⟩

/-- C10, amended: when `risk_audit` runs the skill on at least one
well-formed factor AND the LLM-reported `issues` decodes to a list that the
placeholder filter accepts, the returned issues list contains the synthetic
`"[RiskScore] Score:"`-prefixed entry, is nonempty, and flows — for any state
carrying the audited answer — into the wire response's
`risk_assessment.issues`.  (A non-list `issues` silently loses the entry: see
the counterexample.) -/
theorem claim_C10
    (answer question content : String) (docs : List Doc)
    (fields : List (String × JValue)) (items : List JValue)
    (l0 : List JValue) (f0 : List String)
    (hlen : 50 ≤ answer.length)
    (herr : containsSub (pyLower answer) "error" = false)
    (hnd : containsSub (pyLower answer) "no hay documentos" = false)
    (hp : parse_json_response content = some (.jobj fields))
    (htr : (JValue.jobj fields).truthy = true)
    (hkey : jHasKey fields "risk_factors" = true)
    (hrf : jGet fields "risk_factors" (.jarr []) = .jarr items)
    (hie : (items.filterMap convertFactor).isEmpty = false)
    (hiss : jGet fields "issues" (.jarr []) = .jarr l0)
    (hfl : filterIssuesList l0 = .ok f0) :
    ∃ (r c : String) (g : JValue) (issuesF : List String),
      riskAudit answer docs question (.ok content) = (r, c, issuesF, g) ∧
      scoreEntry (calculate (items.filterMap convertFactor)) ∈ issuesF ∧
      pyStartsWith (scoreEntry (calculate (items.filterMap convertFactor)))
        "[RiskScore] Score:" = true ∧
      issuesF ≠ [] ∧
      (∀ s : AgentState, s.answer = answer →
        ∃ ra, (build_query_response (applyUpdate s (riskSentinelNode (.ok content) s))
          ).agent_metadata.risk_assessment = some ra ∧ ra.issues = issuesF) := by
  obtain ⟨rj, cj, gb, hss⟩ := skillStep_ran fields
    (jGet fields "risk_level" (.jstr "medium"))
    (jGet fields "compliance_status" (.jstr "approved"))
    (jGet fields "gate_passed" (.jbool true)) items l0 hrf hie
  obtain ⟨t, hset⟩ := scoreEntry_head (calculate (items.filterMap convertFactor))
  have hsne := str_ne_empty_of_head hset
  have hsnl := not_lista_of_bracket hset
  have htail : filterIssuesList ([.jstr (scoreEntry (calculate (items.filterMap convertFactor)))] ++
      (if (calculate (items.filterMap convertFactor)).kill_switch_activated
       then [.jstr (killEntry (calculate (items.filterMap convertFactor)))] else [])) =
      .ok (scoreEntry (calculate (items.filterMap convertFactor)) ::
        (if (calculate (items.filterMap convertFactor)).kill_switch_activated
         then [killEntry (calculate (items.filterMap convertFactor))] else [])) := by
    cases hk : (calculate (items.filterMap convertFactor)).kill_switch_activated
    · simp only [Bool.false_eq_true, if_false, List.append_nil]
      exact filterIssuesList_single_good hsne hsnl
    · obtain ⟨tk, hket⟩ := killEntry_head (calculate (items.filterMap convertFactor))
      have hkne := str_ne_empty_of_head hket
      have hknl := not_lista_of_bracket hket
      simp only [if_true, List.singleton_append]
      rw [filterIssuesList_cons_str]
      rw [if_neg (by simp [hsne]), if_neg (by simp [hsnl])]
      rw [filterIssuesList_single_good hkne hknl]
      rfl
  have hfil2 : pyFilterIssues (.jarr ((l0 ++
      [.jstr (scoreEntry (calculate (items.filterMap convertFactor)))]) ++
      (if (calculate (items.filterMap convertFactor)).kill_switch_activated
       then [.jstr (killEntry (calculate (items.filterMap convertFactor)))] else []))) =
      .ok (f0 ++ (scoreEntry (calculate (items.filterMap convertFactor)) ::
        (if (calculate (items.filterMap convertFactor)).kill_switch_activated
         then [killEntry (calculate (items.filterMap convertFactor))] else []))) := by
    show filterIssuesList _ = _
    rw [List.append_assoc, filterIssuesList_append_ok hfl, htail]
    rfl
  have key : ∀ (d : List Doc) (q : String),
      riskAudit answer d q (.ok content) =
        (validateEnum rj ["low", "medium", "high", "critical"] "medium",
         validateEnum cj ["approved", "pending", "rejected"] "approved",
         f0 ++ (scoreEntry (calculate (items.filterMap convertFactor)) ::
           (if (calculate (items.filterMap convertFactor)).kill_switch_activated
            then [killEntry (calculate (items.filterMap convertFactor))] else [])),
         .jbool gb) := by
    intro d q
    have hc1 : (answer.length < 50 || containsSub (pyLower answer) "error") = false := by
      rw [herr]
      simp only [Bool.or_false, decide_eq_false_iff_not, Nat.not_lt]
      exact hlen
    unfold riskAudit
    rw [hc1]
    simp only [Bool.false_eq_true, if_false]
    rw [hnd]
    simp only [Bool.false_eq_true, if_false]
    rw [hp]
    dsimp only
    rw [htr]
    simp only [Bool.not_true, Bool.false_eq_true, if_false]
    rw [hkey]
    simp only [if_true]
    rw [hiss, hss]
    dsimp only
    rw [hfil2]
  refine ⟨_, _, _, _, key docs question,
    List.mem_append_right _ (List.mem_cons_self _ _),
    scoreEntry_starts _, by simp, ?_⟩
  intro s hs
  have hrne := validateEnum_risk_ne rj
  have hre : (validateEnum rj ["low", "medium", "high", "critical"] "medium").isEmpty = false := by
    cases he : (validateEnum rj ["low", "medium", "high", "critical"] "medium").isEmpty with
    | false => rfl
    | true => exact absurd ((String.isEmpty_iff _).mp he) hrne
  have hba : (build_query_response (applyUpdate s (riskSentinelNode (.ok content) s))
      ).agent_metadata.risk_assessment = some
        (RiskAssessmentW.mk
          (some (validateEnum rj ["low", "medium", "high", "critical"] "medium"))
          (some (validateEnum cj ["approved", "pending", "rejected"] "approved"))
          (f0 ++ (scoreEntry (calculate (items.filterMap convertFactor)) ::
            (if (calculate (items.filterMap convertFactor)).kill_switch_activated
             then [killEntry (calculate (items.filterMap convertFactor))] else [])))
          (some (.jbool gb))) := by
    unfold riskSentinelNode
    rw [hs, key (getDocs s) s.question]
    unfold build_query_response applyUpdate
    dsimp only
    simp only [Option.map_some', Option.getD_some]
    rw [show truthyOptStr (some (validateEnum rj ["low", "medium", "high", "critical"]
      "medium")) = true from by
        rw [show truthyOptStr (some (validateEnum rj ["low", "medium", "high", "critical"]
          "medium")) = !(validateEnum rj ["low", "medium", "high", "critical"]
          "medium").isEmpty from rfl, hre]
        rfl]
    rw [if_pos rfl]
  exact ⟨_, hba, rfl⟩

set_option maxRecDepth 20000 in
/-- C10, counterexample: a well-formed factor runs the skill, but the LLM
supplied `issues` as the number `5`: the score entry cannot be appended
(`.append` on an `int` raises into the skill-level handler) and the final
filter then raises `TypeError`, so the returned issues list carries no
`"[RiskScore] Score:"` entry at all. -/
theorem claim_C10_counterexample :
    riskAudit longAnswer [okDoc] "q" (.ok cx10Content) =
      ("medium", "approved", ["Error en auditor\u00eda: TypeError"], .jbool true) ∧
    (["Error en auditor\u00eda: TypeError"].any
      (fun i => pyStartsWith i "[RiskScore] Score:")) = false := ⟨by rfl, by decide⟩

set_option maxRecDepth 20000 in
/-- C10, witness: a GO run with a string issue list — the score entry is
appended, survives the filter, and reaches the wire response. -/
theorem claim_C10_witness :
    ∃ (r c : String) (g : JValue) (issuesF : List String),
      riskAudit longAnswer [okDoc] "q" (.ok w10Content) = (r, c, issuesF, g) ∧
      scoreEntry (calculate ([JValue.jobj [("severity", JValue.jstr "low"),
        ("probability", JValue.jnum 5 1)]].filterMap convertFactor)) ∈ issuesF ∧
      pyStartsWith (scoreEntry (calculate ([JValue.jobj [("severity", JValue.jstr "low"),
        ("probability", JValue.jnum 5 1)]].filterMap convertFactor)))
        "[RiskScore] Score:" = true ∧
      issuesF ≠ [] ∧
      (∀ s : AgentState, s.answer = longAnswer →
        ∃ ra, (build_query_response (applyUpdate s (riskSentinelNode (.ok w10Content) s))
          ).agent_metadata.risk_assessment = some ra ∧ ra.issues = issuesF) :=
  claim_C10 longAnswer "q" w10Content [okDoc]
    [("risk_factors", .jarr [.jobj [("severity", .jstr "low"), ("probability", .jnum 5 1)]]),
     ("issues", .jarr [.jstr "observacion"])]
    [.jobj [("severity", .jstr "low"), ("probability", .jnum 5 1)]]
    [.jstr "observacion"] ["observacion"]
    (by decide) rfl rfl rfl rfl rfl rfl rfl rfl rfl

/-! ### C5: specialist error handling -/

theorem specialistGenerate_error (q : String) (ctx : List Doc) (dom : String) (e : PyErr)
    (hctx : (pyStrip (joinDocs ctx)).isEmpty = false) :
    specialistGenerate q ctx dom (.error e) =
      "Error en el agente especializado (" ++ e.name ++ "): " ++ takeChars 200 e.msg
        ++ ". Revisa los logs para m\u00e1s detalles." := by
  unfold specialistGenerate
  dsimp only
  rw [hctx]
  simp only [Bool.false_eq_true, if_false]

theorem errString_starts (e : PyErr) :
    pyStartsWith ("Error en el agente especializado (" ++ e.name ++ "): "
      ++ takeChars 200 e.msg ++ ". Revisa los logs para m\u00e1s detalles.")
      "Error en el agente" = true := by
  unfold pyStartsWith
  have h0 : ("Error en el agente especializado (" ++ e.name ++ "): " ++ takeChars 200 e.msg
      ++ ". Revisa los logs para m\u00e1s detalles.").toList =
      ((("Error en el agente especializado (".toList ++ e.name.toList) ++ "): ".toList)
        ++ (takeChars 200 e.msg).toList) ++ ". Revisa los logs para m\u00e1s detalles.".toList := rfl
  rw [h0, List.append_assoc, List.append_assoc, List.append_assoc]
  exact prefixB_mono _ (by decide)

theorem containsL_of_prefix {l pat : List Char} (h : prefixB pat l = true) :
    containsL l pat = true := by
  cases l with
  | nil =>
      cases pat with
      | nil => rfl
      | cons c cs => simp [prefixB] at h
  | cons c cs =>
      unfold containsL
      rw [h]
      rfl

theorem errString_lower_error (e : PyErr) :
    containsSub (pyLower ("Error en el agente especializado (" ++ e.name ++ "): "
      ++ takeChars 200 e.msg ++ ". Revisa los logs para m\u00e1s detalles.")) "error" = true := by
  unfold containsSub
  apply containsL_of_prefix
  obtain ⟨t, ht⟩ : ∃ t, (pyLower ("Error en el agente especializado (" ++ e.name ++ "): "
      ++ takeChars 200 e.msg ++ ". Revisa los logs para m\u00e1s detalles.")).toList =
      'e' :: 'r' :: 'r' :: 'o' :: 'r' :: t := ⟨_, rfl⟩
  rw [ht]
  show prefixB ['e', 'r', 'r', 'o', 'r'] ('e' :: 'r' :: 'r' :: 'o' :: 'r' :: t) = true
  simp [prefixB]

theorem riskAudit_error_marker (answer : String) (docs : List Doc) (q : String)
    (resp : Except PyErr String)
    (h : containsSub (pyLower answer) "error" = true) :
    riskAudit answer docs q resp = ("low", "approved", [], .jbool true) := by
  unfold riskAudit
  rw [h]
  simp only [Bool.or_true, if_true]

/-- C5: a specialist LLM exception is caught and rendered as the truncated
`"Error en el agente especializado (...)"` answer; that answer contains the
`error` marker, so the risk audit short-circuits to approval and the audit
loop terminates at once with `audit_result = "pass"`. -/
theorem claim_C5 :
    (∀ (q : String) (ctx : List Doc) (dom : String) (e : PyErr),
        (pyStrip (joinDocs ctx)).isEmpty = false →
        specialistGenerate q ctx dom (.error e) =
          "Error en el agente especializado (" ++ e.name ++ "): " ++ takeChars 200 e.msg
            ++ ". Revisa los logs para m\u00e1s detalles." ∧
        pyStartsWith (specialistGenerate q ctx dom (.error e)) "Error en el agente" = true) ∧
    (∀ (answer : String) (docs : List Doc) (q : String) (resp : Except PyErr String),
        containsSub (pyLower answer) "error" = true →
        riskAudit answer docs q resp = ("low", "approved", [], .jbool true)) ∧
    (∀ (o : Oracle) (e : PyErr) (s : AgentState) (round fuel : Nat),
        o.specialistResp = .error e →
        (pyStrip (joinDocs (getDocs s))).isEmpty = false →
        ∃ s', auditLoop o (fuel + 1) round (applyUpdate s (specialistNode o s)) = some s' ∧
          pyStartsWith s'.answer "Error en el agente" = true ∧
          s'.audit_result = "pass") := by
  refine ⟨?_, ?_, ?_⟩
  · intro q ctx dom e hctx
    have hm := specialistGenerate_error q ctx dom e hctx
    exact ⟨hm, by rw [hm]; exact errString_starts e⟩
  · intro answer docs q resp h
    exact riskAudit_error_marker answer docs q resp h
  · intro o e s round fuel hspec hctx
    have hsn : specialistNode o s =
        { answer := some ("Error en el agente especializado (" ++ e.name ++ "): "
            ++ takeChars 200 e.msg ++ ". Revisa los logs para m\u00e1s detalles.") } := by
      unfold specialistNode
      rw [hspec]
      rw [specialistGenerate_error s.question (getDocs s) s.domain e hctx]
    have hans : (applyUpdate s (specialistNode o s)).answer =
        "Error en el agente especializado (" ++ e.name ++ "): "
          ++ takeChars 200 e.msg ++ ". Revisa los logs para m\u00e1s detalles." := by
      rw [hsn]
      rfl
    have hsent : riskSentinelNode (o.riskResp round) (applyUpdate s (specialistNode o s)) =
        { risk_level := some "low", compliance_status := some "approved",
          risk_issues := some [], gate_passed := some (.jbool true),
          audit_result := some "pass" } := by
      unfold riskSentinelNode
      dsimp only
      rw [hans, riskAudit_error_marker _ _ _ _ (errString_lower_error e)]
      rfl
    have ha1 : (applyUpdate (applyUpdate s (specialistNode o s))
        (riskSentinelNode (o.riskResp round) (applyUpdate s (specialistNode o s)))).audit_result
        = "pass" := by
      rw [hsent]
      rfl
    have ha2 : (applyUpdate (applyUpdate s (specialistNode o s))
        (riskSentinelNode (o.riskResp round) (applyUpdate s (specialistNode o s)))).answer
        = "Error en el agente especializado (" ++ e.name ++ "): "
          ++ takeChars 200 e.msg ++ ". Revisa los logs para m\u00e1s detalles." := by
      rw [hsent, ← hans]
      rfl
    refine ⟨_, ?_, ?_, ha1⟩
    · unfold auditLoop
      dsimp only
      rw [show (should_continue_after_audit (applyUpdate (applyUpdate s (specialistNode o s))
          (riskSentinelNode (o.riskResp round) (applyUpdate s (specialistNode o s))))
          == "refine") = false from by
        unfold should_continue_after_audit
        rw [ha1]
        rfl]
      rfl
    · rw [ha2]
      exact errString_starts e

/-- C5, witness: the statement at a timed-out specialist call. -/
theorem claim_C5_witness :
    (specialistGenerate "q" [okDoc] "financial" (.error ⟨"TimeoutError", "llm timed out"⟩) =
       "Error en el agente especializado (" ++ "TimeoutError" ++ "): "
         ++ takeChars 200 "llm timed out" ++ ". Revisa los logs para m\u00e1s detalles." ∧
     pyStartsWith (specialistGenerate "q" [okDoc] "financial"
       (.error ⟨"TimeoutError", "llm timed out"⟩)) "Error en el agente" = true) ∧
    riskAudit ("Error en el agente especializado (TimeoutError): llm timed out."
        ++ " Revisa los logs para m\u00e1s detalles.")
      [okDoc] "q" (.ok "no json") = ("low", "approved", [], .jbool true) ∧
    (∃ s', auditLoop oSpecErr (0 + 1) 0 (applyUpdate
        { createInitialState "q" "t" with context := [okDoc], domain := "financial" }
        (specialistNode oSpecErr
          { createInitialState "q" "t" with context := [okDoc], domain := "financial" }))
        = some s' ∧
      pyStartsWith s'.answer "Error en el agente" = true ∧ s'.audit_result = "pass") :=
  ⟨claim_C5.1 "q" [okDoc] "financial" ⟨"TimeoutError", "llm timed out"⟩ (by decide),
   claim_C5.2.1 _ [okDoc] "q" (.ok "no json") (by decide),
   claim_C5.2.2 oSpecErr ⟨"TimeoutError", "llm timed out"⟩ _ 0 0 rfl (by decide)⟩

/-! ### C4: the grading safety net -/

/-- C4: in the batched grader, a data-heavy question with fewer relevant
documents than `safety_net_min_docs` falls back to the top
`safety_net_fallback_docs` of `context` in retrieval order; so does an empty
relevant list for any question; hence an all-not-relevant grading of a
data-heavy question yields exactly `min(safety_net_fallback_docs,
len(context))` documents, the initial segment of `context`. -/
theorem claim_C4 (cfg : GraderSettings) (context : List Doc) (question text : String) :
    (detectDataHeavy question = true →
      (gradeBatchRelevant context text).length < cfg.safety_net_min_docs →
      gradeDocumentsBatch cfg context question (.ok text) =
        context.take cfg.safety_net_fallback_docs) ∧
    (gradeBatchRelevant context text = [] →
      gradeDocumentsBatch cfg context question (.ok text) =
        context.take cfg.safety_net_fallback_docs) ∧
    (detectDataHeavy question = true → gradeBatchRelevant context text = [] →
      (gradeDocumentsBatch cfg context question (.ok text)).length =
        min cfg.safety_net_fallback_docs context.length ∧
      gradeDocumentsBatch cfg context question (.ok text) =
        context.take cfg.safety_net_fallback_docs) := by
  have hfb : ∀ (hdh : detectDataHeavy question = true)
      (hlt : (gradeBatchRelevant context text).length < cfg.safety_net_min_docs),
      gradeDocumentsBatch cfg context question (.ok text) =
        context.take cfg.safety_net_fallback_docs := by
    intro hdh hlt
    unfold gradeDocumentsBatch
    dsimp only
    rw [if_pos (by rw [hdh]; simp [hlt])]
  have hempty : gradeBatchRelevant context text = [] →
      gradeDocumentsBatch cfg context question (.ok text) =
        context.take cfg.safety_net_fallback_docs := by
    intro he
    unfold gradeDocumentsBatch
    dsimp only
    by_cases hc : ((gradeBatchRelevant context text).length < cfg.safety_net_min_docs
        && detectDataHeavy question) = true
    · rw [if_pos hc]
    · rw [if_neg hc, if_pos (by rw [he]; rfl)]
  refine ⟨hfb, hempty, fun hdh he => ⟨?_, hempty he⟩⟩
  rw [hempty he, List.length_take]

/-- C4, witness: an all-not-relevant grading of the data-heavy question
`"cual es el cronograma"` over three documents with the default settings. -/
theorem claim_C4_witness :
    gradeDocumentsBatch {} [okDoc, okDoc, okDoc] "cual es el cronograma"
      (.ok "1: not_relevant\n2: not_relevant\n3: not_relevant") =
      [okDoc, okDoc, okDoc].take 5 ∧
    (gradeDocumentsBatch {} [okDoc, okDoc, okDoc] "cual es el cronograma"
      (.ok "1: not_relevant\n2: not_relevant\n3: not_relevant")).length = min 5 3 := by
  have h := claim_C4 {} [okDoc, okDoc, okDoc] "cual es el cronograma"
    "1: not_relevant\n2: not_relevant\n3: not_relevant"
  exact ⟨h.2.1 (by rfl), (h.2.2 (by rfl) (by rfl)).1⟩

/-! ### C7: the JSON round trip through the fence -/

theorem subFenceF_nil : ∀ f, subFenceF f [] = [] := by
  intro f
  cases f <;> rfl

theorem prefixB_self_append (p m : List Char) : prefixB p (p ++ m) = true := by
  induction p with
  | nil => rfl
  | cons c cs ih => simp [prefixB, ih]

theorem hasTriple_cons {c : Char} {cs : List Char} (h : hasTriple (c :: cs) = false) :
    hasTriple cs = false ∧ prefixB ['`', '`', '`'] (c :: cs) = false := by
  unfold hasTriple containsL at h
  rcases Bool.or_eq_false_iff.mp h with ⟨h1, h2⟩
  exact ⟨h2, h1⟩

theorem skipJsWs_cons_not {c : Char} (l : List Char) (h : isJsWs c = false) :
    skipJsWs (c :: l) = c :: l := by
  unfold skipJsWs
  rw [h]
  simp

theorem skipJsWs_cons_ws {c : Char} (l : List Char) (h : isJsWs c = true) :
    skipJsWs (c :: l) = skipJsWs l := by
  show (if isJsWs c = true then skipJsWs l else c :: l) = skipJsWs l
  rw [h]
  simp

theorem skipJsWs_ws_append {pre : List Char} (l : List Char)
    (h : ∀ c ∈ pre, isJsWs c = true) : skipJsWs (pre ++ l) = skipJsWs l := by
  induction pre with
  | nil => rfl
  | cons c cs ih =>
      rw [List.cons_append, skipJsWs_cons_ws _ (h c (by simp))]
      exact ih (fun x hx => h x (by simp [hx]))

theorem readVal_ws (fuel : Nat) {pre : List Char} (cs : List Char)
    (h : ∀ c ∈ pre, isJsWs c = true) : readVal fuel (pre ++ cs) = readVal fuel cs := by
  cases fuel with
  | zero => rfl
  | succ f =>
      unfold readVal
      rw [skipJsWs_ws_append cs h]

theorem dropTrailing_append_last {c : Char} {p : Char → Bool} (l : List Char)
    (h : p c = false) : dropTrailing p (l ++ [c]) = l ++ [c] := by
  unfold dropTrailing
  rw [List.reverse_append]
  show (dropLeading p (c :: l.reverse)).reverse = _
  unfold dropLeading
  rw [h]
  simp

theorem readNum_int (ds rest : List Char)
    (hds : ∀ c ∈ ds, isDig c = true) (hne : ds ≠ [])
    (hrest : ∀ c, rest.head? = some c → isDig c = false ∧ (c == '.') = false ∧
      (c == 'e') = false ∧ (c == 'E') = false) :
    readNum (ds ++ rest) = some (.jnum (digitsVal ds) 0, rest) := by
  obtain ⟨c, cs, rfl⟩ : ∃ c cs, ds = c :: cs := by
    cases ds with
    | nil => exact absurd rfl hne
    | cons c cs => exact ⟨c, cs, rfl⟩
  have hc := hds c (by simp)
  have hsig := isDig_ne_sign hc
  have hstop : digitSpan rest = ([], rest) := digitSpan_stop (fun x hx => (hrest x hx).1)
  have hspan : digitSpan ((c :: cs) ++ rest) = (c :: cs, rest) := digitSpan_run rest hds hstop
  have hm : (((c :: cs) ++ rest).head? == some '-') = false := hsig.1
  have hfr : (rest.head? == some '.') = false := by
    cases hh : rest.head? with
    | none => rfl
    | some x => exact (hrest x hh).2.1
  have he : (rest.head? == some 'e') = false := by
    cases hh : rest.head? with
    | none => rfl
    | some x => exact (hrest x hh).2.2.1
  have hE : (rest.head? == some 'E') = false := by
    cases hh : rest.head? with
    | none => rfl
    | some x => exact (hrest x hh).2.2.2
  unfold readNum
  simp only [hm, Bool.false_eq_true, if_false]
  rw [hspan]
  simp only [hfr, Bool.false_eq_true, if_false, List.isEmpty_nil, Bool.and_false,
    List.append_nil, he, hE, Bool.or_self, one_mul]
  simp

theorem readNum_int_neg (ds rest : List Char)
    (hds : ∀ c ∈ ds, isDig c = true) (hne : ds ≠ [])
    (hrest : ∀ c, rest.head? = some c → isDig c = false ∧ (c == '.') = false ∧
      (c == 'e') = false ∧ (c == 'E') = false) :
    readNum ('-' :: (ds ++ rest)) = some (.jnum (-(digitsVal ds : Int)) 0, rest) := by
  obtain ⟨c, cs, rfl⟩ : ∃ c cs, ds = c :: cs := by
    cases ds with
    | nil => exact absurd rfl hne
    | cons c cs => exact ⟨c, cs, rfl⟩
  have hstop : digitSpan rest = ([], rest) := digitSpan_stop (fun x hx => (hrest x hx).1)
  have hspan : digitSpan ((c :: cs) ++ rest) = (c :: cs, rest) := digitSpan_run rest hds hstop
  have hm : (('-' :: (c :: cs ++ rest)).head? == some '-') = true := rfl
  have hfr : (rest.head? == some '.') = false := by
    cases hh : rest.head? with
    | none => rfl
    | some x => exact (hrest x hh).2.1
  have he : (rest.head? == some 'e') = false := by
    cases hh : rest.head? with
    | none => rfl
    | some x => exact (hrest x hh).2.2.1
  have hE : (rest.head? == some 'E') = false := by
    cases hh : rest.head? with
    | none => rfl
    | some x => exact (hrest x hh).2.2.2
  unfold readNum
  simp only [hm, if_true, List.tail_cons]
  rw [hspan]
  simp only [hfr, Bool.false_eq_true, if_false, List.isEmpty_nil, Bool.and_false,
    List.append_nil, he, hE, Bool.or_self]
  simp

theorem readNum_frac (ds fs rest : List Char)
    (hds : ∀ c ∈ ds, isDig c = true) (hne : ds ≠ [])
    (hfs : ∀ c ∈ fs, isDig c = true) (hfne : fs ≠ [])
    (hrest : ∀ c, rest.head? = some c → isDig c = false ∧ (c == '.') = false ∧
      (c == 'e') = false ∧ (c == 'E') = false) :
    readNum (ds ++ '.' :: (fs ++ rest)) =
      some (.jnum (digitsVal (ds ++ fs)) fs.length, rest) := by
  obtain ⟨c, cs, rfl⟩ : ∃ c cs, ds = c :: cs := by
    cases ds with
    | nil => exact absurd rfl hne
    | cons c cs => exact ⟨c, cs, rfl⟩
  obtain ⟨d, dsx, rfl⟩ : ∃ d dsx, fs = d :: dsx := by
    cases fs with
    | nil => exact absurd rfl hfne
    | cons d dsx => exact ⟨d, dsx, rfl⟩
  have hc := hds c (by simp)
  have hsig := isDig_ne_sign hc
  have hstop : digitSpan rest = ([], rest) := digitSpan_stop (fun x hx => (hrest x hx).1)
  have hdot : digitSpan ('.' :: (d :: dsx ++ rest)) = ([], '.' :: (d :: dsx ++ rest)) :=
    digitSpan_stop (by intro x hx; injection hx with hx; rw [← hx]; decide)
  have hspan : digitSpan ((c :: cs) ++ '.' :: (d :: dsx ++ rest)) =
      (c :: cs, '.' :: (d :: dsx ++ rest)) := digitSpan_run _ hds hdot
  have hspan2 : digitSpan (d :: dsx ++ rest) = (d :: dsx, rest) := digitSpan_run rest hfs hstop
  have hm : (((c :: cs) ++ '.' :: (d :: dsx ++ rest)).head? == some '-') = false := hsig.1
  have he : (rest.head? == some 'e') = false := by
    cases hh : rest.head? with
    | none => rfl
    | some x => exact (hrest x hh).2.2.1
  have hE : (rest.head? == some 'E') = false := by
    cases hh : rest.head? with
    | none => rfl
    | some x => exact (hrest x hh).2.2.2
  unfold readNum
  simp only [hm, Bool.false_eq_true, if_false]
  rw [hspan]
  simp only [List.head?_cons, Option.some.injEq, beq_self_eq_true, if_true, List.tail_cons]
  rw [hspan2]
  simp only [he, hE, Bool.or_self, Bool.false_eq_true, if_false, one_mul]
  simp

theorem readNum_frac_neg (ds fs rest : List Char)
    (hds : ∀ c ∈ ds, isDig c = true) (hne : ds ≠ [])
    (hfs : ∀ c ∈ fs, isDig c = true) (hfne : fs ≠ [])
    (hrest : ∀ c, rest.head? = some c → isDig c = false ∧ (c == '.') = false ∧
      (c == 'e') = false ∧ (c == 'E') = false) :
    readNum ('-' :: (ds ++ '.' :: (fs ++ rest))) =
      some (.jnum (-(digitsVal (ds ++ fs) : Int)) fs.length, rest) := by
  obtain ⟨c, cs, rfl⟩ : ∃ c cs, ds = c :: cs := by
    cases ds with
    | nil => exact absurd rfl hne
    | cons c cs => exact ⟨c, cs, rfl⟩
  obtain ⟨d, dsx, rfl⟩ : ∃ d dsx, fs = d :: dsx := by
    cases fs with
    | nil => exact absurd rfl hfne
    | cons d dsx => exact ⟨d, dsx, rfl⟩
  have hstop : digitSpan rest = ([], rest) := digitSpan_stop (fun x hx => (hrest x hx).1)
  have hdot : digitSpan ('.' :: (d :: dsx ++ rest)) = ([], '.' :: (d :: dsx ++ rest)) :=
    digitSpan_stop (by intro x hx; injection hx with hx; rw [← hx]; decide)
  have hspan : digitSpan ((c :: cs) ++ '.' :: (d :: dsx ++ rest)) =
      (c :: cs, '.' :: (d :: dsx ++ rest)) := digitSpan_run _ hds hdot
  have hspan2 : digitSpan (d :: dsx ++ rest) = (d :: dsx, rest) := digitSpan_run rest hfs hstop
  have hm : (('-' :: ((c :: cs) ++ '.' :: (d :: dsx ++ rest))).head? == some '-') = true := rfl
  have he : (rest.head? == some 'e') = false := by
    cases hh : rest.head? with
    | none => rfl
    | some x => exact (hrest x hh).2.2.1
  have hE : (rest.head? == some 'E') = false := by
    cases hh : rest.head? with
    | none => rfl
    | some x => exact (hrest x hh).2.2.2
  unfold readNum
  simp only [hm, if_true, List.tail_cons]
  rw [hspan]
  simp only [List.head?_cons, Option.some.injEq, beq_self_eq_true, if_true, List.tail_cons]
  rw [hspan2]
  simp only [he, hE, Bool.or_self, Bool.false_eq_true, if_false]
  simp

theorem readNum_renderNum (m : Int) (e : Nat) (rest : List Char)
    (hrest : ∀ c, rest.head? = some c → isDig c = false ∧ (c == '.') = false ∧
      (c == 'e') = false ∧ (c == 'E') = false) :
    readNum (renderNum m e ++ rest) = some (.jnum m e, rest) := by
  cases e with
  | zero =>
      unfold renderNum
      dsimp only
      by_cases hm : m < 0
      · rw [if_pos hm, if_pos rfl]
        rw [show ((['-'] ++ natChars m.natAbs) ++ rest : List Char) =
          '-' :: (natChars m.natAbs ++ rest) from by simp]
        rw [readNum_int_neg _ _ (natChars_digits _) (natChars_ne_nil _) hrest]
        rw [digitsVal_natChars]
        have hmm : (-(m.natAbs : Int)) = m := by omega
        rw [hmm]
      · rw [if_neg hm, if_pos rfl]
        rw [List.nil_append]
        rw [readNum_int _ _ (natChars_digits _) (natChars_ne_nil _) hrest]
        rw [digitsVal_natChars]
        have hmm : ((m.natAbs : Int)) = m := by omega
        rw [hmm]
  | succ e' =>
      unfold renderNum
      dsimp only
      rw [if_neg (by omega)]
      have hpl : (e' + 1 + 1 - (natChars m.natAbs).length) + (natChars m.natAbs).length =
          (List.replicate (e' + 1 + 1 - (natChars m.natAbs).length) '0'
            ++ natChars m.natAbs).length := by
        simp
      have hge : e' + 1 + 1 ≤ (List.replicate (e' + 1 + 1 - (natChars m.natAbs).length) '0'
          ++ natChars m.natAbs).length := by
        rw [← hpl]
        have := natChars_ne_nil m.natAbs
        have hl : 1 ≤ (natChars m.natAbs).length := by
          cases hnc : natChars m.natAbs with
          | nil => exact absurd hnc (natChars_ne_nil _)
          | cons a b => simp
        omega
      set padded := List.replicate (e' + 1 + 1 - (natChars m.natAbs).length) '0'
        ++ natChars m.natAbs with hpad
      set k := padded.length - (e' + 1) with hk
      have hpdig : ∀ c ∈ padded, isDig c = true := by
        intro c hcp
        rw [hpad] at hcp
        rcases List.mem_append.mp hcp with h1 | h2
        · rw [List.eq_of_mem_replicate h1]
          decide
        · exact natChars_digits _ c h2
      have htake : ∀ c ∈ padded.take k, isDig c = true :=
        fun c hc => hpdig c (List.take_subset _ _ hc)
      have hdrop : ∀ c ∈ padded.drop k, isDig c = true :=
        fun c hc => hpdig c (List.drop_subset _ _ hc)
      have hkge : 1 ≤ k := by omega
      have hkle : k ≤ padded.length := by omega
      have htne : padded.take k ≠ [] := by
        have : (padded.take k).length = k := by
          rw [List.length_take]
          omega
        intro hcon
        rw [hcon] at this
        simp at this
        omega
      have hdlen : (padded.drop k).length = e' + 1 := by
        rw [List.length_drop]
        omega
      have hdne : padded.drop k ≠ [] := by
        intro hcon
        rw [hcon] at hdlen
        simp at hdlen
      have hdv : digitsVal (padded.take k ++ padded.drop k) = m.natAbs := by
        rw [List.take_append_drop, hpad, digitsVal_replicate_zero, digitsVal_natChars]
      by_cases hm : m < 0
      · rw [if_pos hm]
        simp only [List.append_assoc, List.cons_append, List.singleton_append,
          List.nil_append]
        rw [readNum_frac_neg _ _ _ htake htne hdrop hdne hrest]
        rw [hdv, hdlen]
        have hmm : (-(m.natAbs : Int)) = m := by omega
        rw [hmm]
      · rw [if_neg hm]
        simp only [List.append_assoc, List.cons_append, List.nil_append]
        rw [readNum_frac _ _ _ htake htne hdrop hdne hrest]
        rw [hdv, hdlen]
        have hmm : ((m.natAbs : Int)) = m := by omega
        rw [hmm]

theorem hexVal_hexChar {n : Nat} (h : n < 16) : hexVal (hexChar n) = some n := by
  interval_cases n <;> decide

theorem readStrF_cons (acc : List Char) (f : Nat) (c : Char) (r : List Char) :
    readStrF acc (f + 1) (c :: r) =
      if c == '"' then some (⟨acc.reverse⟩, r)
      else if c == '\\' then
        match r with
        | [] => none
        | e :: r' =>
            if e == 'u' then
              match readHex4 r' with
              | some (ch, r'') => readStrF (ch :: acc) f r''
              | none => none
            else
              match unescChar e with
              | some ch => readStrF (ch :: acc) f r'
              | none => none
      else readStrF (c :: acc) f r := rfl

theorem readStrF_esc : ∀ (l acc rest : List Char) (fuel : Nat),
    (l.flatMap escChar).length + 1 ≤ fuel →
    readStrF acc fuel (l.flatMap escChar ++ '"' :: rest) = some (⟨acc.reverse ++ l⟩, rest) := by
  intro l
  induction l with
  | nil =>
      intro acc rest fuel hf
      obtain ⟨f, rfl⟩ : ∃ f, fuel = f + 1 := ⟨fuel - 1, by omega⟩
      show readStrF acc (f + 1) ('"' :: rest) = _
      rw [readStrF_cons, if_pos (by decide)]
      simp
  | cons c l ih =>
      intro acc rest fuel hf
      have hcl : ((c :: l).flatMap escChar) = escChar c ++ l.flatMap escChar := by
        simp [List.flatMap_cons]
      rw [hcl] at hf ⊢
      have hel : 1 ≤ (escChar c).length := by
        unfold escChar
        split_ifs <;> simp
      obtain ⟨f, rfl⟩ : ∃ f, fuel = f + 1 := ⟨fuel - 1, by omega⟩
      have hfl : (l.flatMap escChar).length + 1 ≤ f := by
        rw [List.length_append] at hf
        omega
      have hacc : ∀ (a : Char), ((a :: acc).reverse ++ l : List Char) = acc.reverse ++ a :: l := by
        intro a
        simp
      by_cases h1 : (c == '"') = true
      · obtain rfl : c = '"' := by simpa using h1
        show readStrF acc (f + 1) ('\\' :: '"' :: (l.flatMap escChar ++ '"' :: rest)) = _
        rw [readStrF_cons, if_neg (by decide), if_pos (by decide)]
        dsimp only
        rw [if_neg (by decide)]
        rw [show unescChar '"' = some '"' from rfl]
        dsimp only
        rw [ih _ rest f hfl, hacc]
      · by_cases h2 : (c == '\\') = true
        · obtain rfl : c = '\\' := by simpa using h2
          show readStrF acc (f + 1) ('\\' :: '\\' :: (l.flatMap escChar ++ '"' :: rest)) = _
          rw [readStrF_cons, if_neg (by decide), if_pos (by decide)]
          dsimp only
          rw [if_neg (by decide)]
          rw [show unescChar '\\' = some '\\' from rfl]
          dsimp only
          rw [ih _ rest f hfl, hacc]
        · by_cases h3 : (c == '\n') = true
          · obtain rfl : c = '\n' := by simpa using h3
            show readStrF acc (f + 1) ('\\' :: 'n' :: (l.flatMap escChar ++ '"' :: rest)) = _
            rw [readStrF_cons, if_neg (by decide), if_pos (by decide)]
            dsimp only
            rw [if_neg (by decide)]
            rw [show unescChar 'n' = some '\n' from rfl]
            dsimp only
            rw [ih _ rest f hfl, hacc]
          · by_cases h4 : (c == '\t') = true
            · obtain rfl : c = '\t' := by simpa using h4
              show readStrF acc (f + 1) ('\\' :: 't' :: (l.flatMap escChar ++ '"' :: rest)) = _
              rw [readStrF_cons, if_neg (by decide), if_pos (by decide)]
              dsimp only
              rw [if_neg (by decide)]
              rw [show unescChar 't' = some '\t' from rfl]
              dsimp only
              rw [ih _ rest f hfl, hacc]
            · by_cases h5 : (c == '\r') = true
              · obtain rfl : c = '\r' := by simpa using h5
                show readStrF acc (f + 1) ('\\' :: 'r' :: (l.flatMap escChar ++ '"' :: rest)) = _
                rw [readStrF_cons, if_neg (by decide), if_pos (by decide)]
                dsimp only
                rw [if_neg (by decide)]
                rw [show unescChar 'r' = some '\r' from rfl]
                dsimp only
                rw [ih _ rest f hfl, hacc]
              · by_cases h6 : (c == '\x08') = true
                · obtain rfl : c = '\x08' := by simpa using h6
                  show readStrF acc (f + 1) ('\\' :: 'b' :: (l.flatMap escChar ++ '"' :: rest)) = _
                  rw [readStrF_cons, if_neg (by decide), if_pos (by decide)]
                  dsimp only
                  rw [if_neg (by decide)]
                  rw [show unescChar 'b' = some '\x08' from rfl]
                  dsimp only
                  rw [ih _ rest f hfl, hacc]
                · by_cases h7 : (c == '\x0c') = true
                  · obtain rfl : c = '\x0c' := by simpa using h7
                    show readStrF acc (f + 1) ('\\' :: 'f' :: (l.flatMap escChar ++ '"' :: rest)) = _
                    rw [readStrF_cons, if_neg (by decide), if_pos (by decide)]
                    dsimp only
                    rw [if_neg (by decide)]
                    rw [show unescChar 'f' = some '\x0c' from rfl]
                    dsimp only
                    rw [ih _ rest f hfl, hacc]
                  · by_cases h8 : c.toNat < 0x20
                    · have hesc : escChar c = ['\\', 'u', '0', '0',
                          hexChar (c.toNat / 16), hexChar (c.toNat % 16)] := by
                        unfold escChar
                        rw [if_neg h1, if_neg h2, if_neg h3, if_neg h4, if_neg h5,
                          if_neg h6, if_neg h7, if_pos h8]
                      rw [hesc]
                      show readStrF acc (f + 1) ('\\' :: 'u' :: '0' :: '0'
                        :: hexChar (c.toNat / 16) :: hexChar (c.toNat % 16)
                        :: (l.flatMap escChar ++ '"' :: rest)) = _
                      rw [readStrF_cons, if_neg (by decide), if_pos (by decide)]
                      dsimp only
                      rw [if_pos (by decide)]
                      have hh1 : hexVal (hexChar (c.toNat / 16)) = some (c.toNat / 16) :=
                        hexVal_hexChar (by omega)
                      have hh2 : hexVal (hexChar (c.toNat % 16)) = some (c.toNat % 16) :=
                        hexVal_hexChar (by omega)
                      unfold readHex4
                      dsimp only
                      rw [show hexVal '0' = some 0 from rfl, hh1, hh2]
                      dsimp only
                      have hcn : Char.ofNat (((0 * 16 + 0) * 16 + c.toNat / 16) * 16
                          + c.toNat % 16) = c := by
                        rw [show ((0 * 16 + 0) * 16 + c.toNat / 16) * 16 + c.toNat % 16
                          = c.toNat from by omega]
                        exact Char.ofNat_toNat c
                      rw [hcn]
                      rw [ih _ rest f hfl, hacc]
                    · have hesc : escChar c = [c] := by
                        unfold escChar
                        rw [if_neg h1, if_neg h2, if_neg h3, if_neg h4, if_neg h5,
                          if_neg h6, if_neg h7, if_neg h8]
                      rw [hesc]
                      show readStrF acc (f + 1)
                        (c :: (l.flatMap escChar ++ '"' :: rest)) = _
                      rw [readStrF_cons, if_neg h1, if_neg h2]
                      rw [ih _ rest f hfl, hacc]

theorem readStr_render (s : String) (rest : List Char) :
    readStr [] (s.toList.flatMap escChar ++ '"' :: rest) = some (s, rest) := by
  unfold readStr
  rw [readStrF_esc _ _ _ _ (by simp)]
  cases s with
  | mk data => simp

theorem renderNum_head (m : Int) (e : Nat) : ∃ c t, renderNum m e = c :: t ∧
    ((c == '-') = true ∨ isDig c = true) := by
  unfold renderNum
  dsimp only
  by_cases hm : m < 0
  · rw [if_pos hm]
    by_cases he : e = 0
    · rw [if_pos he]
      exact ⟨'-', _, rfl, Or.inl rfl⟩
    · rw [if_neg he]
      exact ⟨'-', _, rfl, Or.inl rfl⟩
  · rw [if_neg hm]
    obtain ⟨c0, t0, hct⟩ : ∃ c0 t0, natChars m.natAbs = c0 :: t0 := by
      cases h : natChars m.natAbs with
      | nil => exact absurd h (natChars_ne_nil _)
      | cons a b => exact ⟨a, b, rfl⟩
    have hd0 : isDig c0 = true := natChars_digits _ c0 (by rw [hct]; simp)
    by_cases he : e = 0
    · rw [if_pos he]
      exact ⟨c0, t0, by rw [List.nil_append, hct], Or.inr hd0⟩
    · rw [if_neg he]
      obtain ⟨cp, tp, hpad, hcpd⟩ : ∃ cp tp,
          (List.replicate (e + 1 - (natChars m.natAbs).length) '0' ++ natChars m.natAbs)
            = cp :: tp ∧ isDig cp = true := by
        cases hNn : e + 1 - (natChars m.natAbs).length with
        | zero =>
            refine ⟨c0, t0, ?_, hd0⟩
            simpa using hct
        | succ n =>
            refine ⟨'0', List.replicate n '0' ++ natChars m.natAbs, ?_, by decide⟩
            rw [List.replicate_succ, List.cons_append]
      have hge : e + 1 ≤ (cp :: tp).length := by
        rw [← hpad, List.length_append, List.length_replicate, hct]
        simp
        omega
      obtain ⟨k', hk'⟩ : ∃ k', (cp :: tp).length - e = k' + 1 :=
        ⟨(cp :: tp).length - e - 1, by omega⟩
      rw [hpad, hk', List.take_succ_cons]
      exact ⟨cp, List.take k' tp ++ '.' :: List.drop (k' + 1) (cp :: tp),
        by rw [List.nil_append, List.cons_append], Or.inr hcpd⟩

theorem render_head (v : JValue) : ∃ c t, render v = c :: t ∧ isJsWs c = false ∧
    (c == ']') = false ∧ (c == '}') = false := by
  cases v with
  | jnull => exact ⟨'n', ['u', 'l', 'l'], by simp [render], by decide, by decide, by decide⟩
  | jbool b =>
      cases b with
      | true => exact ⟨'t', ['r', 'u', 'e'], by simp [render], by decide, by decide, by decide⟩
      | false =>
          exact ⟨'f', ['a', 'l', 's', 'e'], by simp [render], by decide, by decide, by decide⟩
  | jstr s =>
      exact ⟨'"', s.toList.flatMap escChar ++ ['"'], by simp [render, renderStr],
        by decide, by decide, by decide⟩
  | jnum m e =>
      obtain ⟨c, t, hct, hcd⟩ := renderNum_head m e
      refine ⟨c, t, by rw [show render (.jnum m e) = renderNum m e from by simp [render], hct],
        ?_, ?_, ?_⟩
      · rcases hcd with h | h
        · rw [show c = '-' from by simpa using h]
          decide
        · exact (isDig_not_ws h).1
      · rcases hcd with h | h
        · rw [show c = '-' from by simpa using h]
          decide
        · exact (isDig_ne_delims h).2.2.2.1
      · rcases hcd with h | h
        · rw [show c = '-' from by simpa using h]
          decide
        · exact (isDig_ne_delims h).2.2.2.2.1
  | jarr l =>
      cases l with
      | nil => exact ⟨'[', [']'], by simp [render], by decide, by decide, by decide⟩
      | cons a b =>
          exact ⟨'[', render a ++ (renderArrTail b ++ [']']), by simp [render],
            by decide, by decide, by decide⟩
  | jobj l =>
      cases l with
      | nil => exact ⟨'{', ['}'], by simp [render], by decide, by decide, by decide⟩
      | cons a b =>
          exact ⟨'{', renderStr a.1 ++ ':' :: ' ' :: render a.2 ++ (renderObjTail b ++ ['}']),
            by simp [render], by decide, by decide, by decide⟩

theorem readItems_succ (f : Nat) (cs : List Char) :
    readItems (f + 1) cs =
      match readVal f cs with
      | none => none
      | some (v, r) =>
          let r1 := skipJsWs r
          if r1.head? == some ',' then
            match readItems f r1.tail with
            | some (vs, r'') => some (v :: vs, r'')
            | none => none
          else if r1.head? == some ']' then some ([v], r1.tail)
          else none := rfl

theorem readPairs_succ (f : Nat) (cs : List Char) :
    readPairs (f + 1) cs =
      match skipJsWs cs with
      | [] => none
      | c :: r =>
        if c == '"' then
          match readStr [] r with
          | none => none
          | some (k, r1) =>
              let r2 := skipJsWs r1
              if r2.head? == some ':' then
                match readVal f r2.tail with
                | none => none
                | some (v, r3) =>
                    let r4 := skipJsWs r3
                    if r4.head? == some ',' then
                      match readPairs f r4.tail with
                      | some (ms, r5) => some ((k, v) :: ms, r5)
                      | none => none
                    else if r4.head? == some '}' then some ([(k, v)], r4.tail)
                    else none
              else none
        else none := rfl

theorem roundtripAux : ∀ fuel : Nat,
    (∀ (v : JValue) (rest : List Char),
      (∀ c, rest.head? = some c → isDig c = false ∧ (c == '.') = false ∧
        (c == 'e') = false ∧ (c == 'E') = false) →
      (render v).length < fuel →
      readVal fuel (render v ++ rest) = some (v, rest)) ∧
    (∀ (pre : List Char) (v : JValue) (vs : List JValue) (rest : List Char),
      (∀ c ∈ pre, isJsWs c = true) →
      (∀ c, rest.head? = some c → isDig c = false ∧ (c == '.') = false ∧
        (c == 'e') = false ∧ (c == 'E') = false) →
      pre.length + (render v ++ renderArrTail vs).length + 1 < fuel →
      readItems fuel (pre ++ (render v ++ (renderArrTail vs ++ ']' :: rest)))
        = some (v :: vs, rest)) ∧
    (∀ (pre : List Char) (k : String) (v : JValue) (kvs : List (String × JValue))
        (rest : List Char),
      (∀ c ∈ pre, isJsWs c = true) →
      (∀ c, rest.head? = some c → isDig c = false ∧ (c == '.') = false ∧
        (c == 'e') = false ∧ (c == 'E') = false) →
      pre.length + (renderStr k ++ ':' :: ' ' :: render v ++ renderObjTail kvs).length + 1
        < fuel →
      readPairs fuel (pre ++ (renderStr k
        ++ ':' :: ' ' :: (render v ++ (renderObjTail kvs ++ '}' :: rest))))
        = some ((k, v) :: kvs, rest)) := by
  intro fuel
  induction fuel with
  | zero =>
      exact ⟨fun v rest _ h => absurd h (by omega),
        fun pre v vs rest _ _ h => absurd h (by omega),
        fun pre k v kvs rest _ _ h => absurd h (by omega)⟩
  | succ f ihf =>
      obtain ⟨ih1, ih2, ih3⟩ := ihf
      refine ⟨?_, ?_, ?_⟩
      · intro v rest hrest hlen
        cases v with
        | jnull =>
            rw [show render .jnull = ['n', 'u', 'l', 'l'] from by simp [render]]
            rfl
        | jbool b =>
            cases b with
            | true =>
                rw [show render (.jbool true) = ['t', 'r', 'u', 'e'] from by simp [render]]
                rfl
            | false =>
                rw [show render (.jbool false) = ['f', 'a', 'l', 's', 'e'] from by
                  simp [render]]
                rfl
        | jnum m e =>
            rw [show render (.jnum m e) = renderNum m e from by simp [render]]
            obtain ⟨c, t, hct, hcd⟩ := renderNum_head m e
            rw [hct, List.cons_append]
            have hfacts : isJsWs c = false ∧ (c == '"') = false ∧ (c == '[') = false ∧
                (c == '{') = false ∧ (c == 'n') = false ∧ (c == 't') = false ∧
                (c == 'f') = false ∧ (c == '-' || isDig c) = true := by
              rcases hcd with h | h
              · rw [show c = '-' from by simpa using h]
                exact ⟨by decide, by decide, by decide, by decide, by decide, by decide,
                  by decide, by decide⟩
              · have hd := isDig_ne_delims h
                have hs := isDig_ne_sign h
                exact ⟨(isDig_not_ws h).1, hd.1, hd.2.1, hd.2.2.1, hd.2.2.2.2.2.2.1,
                  hd.2.2.2.2.2.2.2.1, hd.2.2.2.2.2.2.2.2, by rw [h]; simp⟩
            unfold readVal
            rw [skipJsWs_cons_not _ hfacts.1]
            dsimp only
            rw [hfacts.2.1]
            simp only [Bool.false_eq_true, if_false]
            rw [hfacts.2.2.1]
            simp only [Bool.false_eq_true, if_false]
            rw [hfacts.2.2.2.1]
            simp only [Bool.false_eq_true, if_false]
            rw [hfacts.2.2.2.2.1]
            simp only [Bool.false_eq_true, if_false]
            rw [hfacts.2.2.2.2.2.1]
            simp only [Bool.false_eq_true, if_false]
            rw [hfacts.2.2.2.2.2.2.1]
            simp only [Bool.false_eq_true, if_false]
            rw [hfacts.2.2.2.2.2.2.2]
            simp only [if_true]
            rw [← List.cons_append, ← hct]
            exact readNum_renderNum m e rest hrest
        | jstr str =>
            rw [show render (.jstr str) = '"' :: (str.toList.flatMap escChar ++ ['"'])
              from by simp [render, renderStr]]
            rw [List.cons_append, List.append_assoc]
            unfold readVal
            rw [skipJsWs_cons_not _ (by decide)]
            dsimp only
            rw [if_pos (by decide)]
            rw [show (['"'] ++ rest : List Char) = '"' :: rest from rfl]
            rw [readStr_render]
            rfl
        | jarr l =>
            cases l with
            | nil =>
                rw [show render (.jarr []) = ['[', ']'] from by simp [render]]
                rfl
            | cons v1 vs =>
                rw [show render (.jarr (v1 :: vs))
                  = '[' :: (render v1 ++ (renderArrTail vs ++ [']'])) from by simp [render]]
                rw [List.cons_append]
                unfold readVal
                rw [skipJsWs_cons_not _ (by decide)]
                dsimp only
                rw [if_neg (by decide), if_pos (by decide)]
                obtain ⟨c0, t0, hc0, hw0, hb0, _⟩ := render_head v1
                have hshape : ((render v1 ++ (renderArrTail vs ++ [']'])) ++ rest : List Char)
                    = render v1 ++ (renderArrTail vs ++ ']' :: rest) := by
                  simp
                rw [hshape, hc0, List.cons_append]
                rw [skipJsWs_cons_not _ hw0]
                rw [show ((c0 :: (t0 ++ (renderArrTail vs ++ ']' :: rest))).head?
                  == some ']') = (c0 == ']') from rfl]
                rw [hb0]
                simp only [Bool.false_eq_true, if_false]
                rw [← List.cons_append, ← hc0]
                have hlen1 : 0 + (render v1 ++ renderArrTail vs).length + 1 < f := by
                  rw [show render (.jarr (v1 :: vs))
                    = '[' :: (render v1 ++ (renderArrTail vs ++ [']'])) from by
                      simp [render]] at hlen
                  simp at hlen ⊢
                  omega
                have := ih2 [] v1 vs rest (by simp) hrest hlen1
                rw [List.nil_append] at this
                rw [this]
                rfl
        | jobj l =>
            cases l with
            | nil =>
                rw [show render (.jobj []) = ['{', '}'] from by simp [render]]
                rfl
            | cons kv kvs =>
                obtain ⟨k, v1⟩ := kv
                rw [show render (.jobj ((k, v1) :: kvs))
                  = '{' :: (renderStr k ++ ':' :: ' ' :: render v1 ++ (renderObjTail kvs
                    ++ ['}'])) from by simp [render]]
                rw [List.cons_append]
                unfold readVal
                rw [skipJsWs_cons_not _ (by decide)]
                dsimp only
                rw [if_neg (by decide), if_neg (by decide), if_pos (by decide)]
                have hshape : ((renderStr k ++ ':' :: ' ' :: render v1
                    ++ (renderObjTail kvs ++ ['}'])) ++ rest : List Char)
                    = renderStr k ++ ':' :: ' ' :: (render v1
                      ++ (renderObjTail kvs ++ '}' :: rest)) := by
                  simp
                rw [hshape]
                rw [show renderStr k = '"' :: (k.toList.flatMap escChar ++ ['"']) from rfl]
                rw [List.cons_append]
                rw [skipJsWs_cons_not _ (by decide)]
                rw [show (('"' :: ((k.toList.flatMap escChar ++ ['"'])
                  ++ ':' :: ' ' :: (render v1 ++ (renderObjTail kvs ++ '}' :: rest)))).head?
                  == some '}') = false from rfl]
                simp only [Bool.false_eq_true, if_false]
                rw [← List.cons_append, ← show renderStr k
                  = '"' :: (k.toList.flatMap escChar ++ ['"']) from rfl]
                have hlen1 : 0 + (renderStr k ++ ':' :: ' ' :: render v1
                    ++ renderObjTail kvs).length + 1 < f := by
                  rw [show render (.jobj ((k, v1) :: kvs))
                    = '{' :: (renderStr k ++ ':' :: ' ' :: render v1 ++ (renderObjTail kvs
                      ++ ['}'])) from by simp [render]] at hlen
                  simp at hlen ⊢
                  omega
                have := ih3 [] k v1 kvs rest (by simp) hrest hlen1
                rw [List.nil_append] at this
                rw [this]
                rfl
      · intro pre v vs rest hpre hrest hlen
        rw [readItems_succ]
        have hv : readVal f (pre ++ (render v ++ (renderArrTail vs ++ ']' :: rest)))
            = some (v, renderArrTail vs ++ ']' :: rest) := by
          rw [readVal_ws f _ hpre]
          apply ih1
          · intro c hc
            cases vs with
            | nil =>
                simp only [renderArrTail, List.nil_append, List.head?_cons] at hc
                injection hc with hc
                rw [← hc]
                exact ⟨by decide, by decide, by decide, by decide⟩
            | cons v2 vs2 =>
                rw [show renderArrTail (v2 :: vs2)
                  = ',' :: ' ' :: render v2 ++ renderArrTail vs2 from by
                    simp [renderArrTail]] at hc
                simp only [List.cons_append, List.head?_cons] at hc
                injection hc with hc
                rw [← hc]
                exact ⟨by decide, by decide, by decide, by decide⟩
          · simp at hlen ⊢
            omega
        rw [hv]
        dsimp only
        cases vs with
        | nil =>
            rw [show (renderArrTail [] ++ ']' :: rest : List Char) = ']' :: rest from by
              simp [renderArrTail]]
            rw [skipJsWs_cons_not _ (by decide)]
            rw [show ((']' :: rest).head? == some ',') = false from rfl]
            simp only [Bool.false_eq_true, if_false]
            rw [show ((']' :: rest).head? == some ']') = true from rfl]
            rfl
        | cons v2 vs2 =>
            rw [show renderArrTail (v2 :: vs2)
              = ',' :: ' ' :: render v2 ++ renderArrTail vs2 from by simp [renderArrTail]]
            rw [show ((',' :: ' ' :: render v2 ++ renderArrTail vs2) ++ ']' :: rest
                : List Char)
              = ',' :: (' ' :: (render v2 ++ (renderArrTail vs2 ++ ']' :: rest))) from by
                simp]
            rw [skipJsWs_cons_not _ (by decide)]
            rw [show ((',' :: (' ' :: (render v2 ++ (renderArrTail vs2 ++ ']' :: rest)))).head?
              == some ',') = true from rfl]
            simp only [if_true, List.tail_cons]
            have hi := ih2 [' '] v2 vs2 rest (by decide) hrest (by
              rw [show renderArrTail (v2 :: vs2)
                = ',' :: ' ' :: render v2 ++ renderArrTail vs2 from by
                  simp [renderArrTail]] at hlen
              simp [List.length_append] at hlen ⊢
              omega)
            rw [show ([' '] ++ (render v2 ++ (renderArrTail vs2 ++ ']' :: rest)) : List Char)
              = ' ' :: (render v2 ++ (renderArrTail vs2 ++ ']' :: rest)) from rfl] at hi
            rw [hi]
      · intro pre k v kvs rest hpre hrest hlen
        rw [readPairs_succ]
        rw [skipJsWs_ws_append _ hpre]
        rw [show renderStr k = '"' :: (k.toList.flatMap escChar ++ ['"']) from rfl]
        rw [List.cons_append]
        rw [skipJsWs_cons_not _ (by decide)]
        dsimp only
        rw [if_pos (by decide)]
        rw [show ((k.toList.flatMap escChar ++ ['"'])
          ++ ':' :: ' ' :: (render v ++ (renderObjTail kvs ++ '}' :: rest)) : List Char)
          = k.toList.flatMap escChar
            ++ '"' :: (':' :: ' ' :: (render v ++ (renderObjTail kvs ++ '}' :: rest)))
          from by simp]
        rw [readStr_render]
        dsimp only
        rw [skipJsWs_cons_not _ (by decide)]
        rw [show ((':' :: ' ' :: (render v ++ (renderObjTail kvs ++ '}' :: rest))).head?
          == some ':') = true from rfl]
        simp only [if_true, List.tail_cons]
        have hv : readVal f (' ' :: (render v ++ (renderObjTail kvs ++ '}' :: rest)))
            = some (v, renderObjTail kvs ++ '}' :: rest) := by
          rw [show (' ' :: (render v ++ (renderObjTail kvs ++ '}' :: rest)) : List Char)
            = [' '] ++ (render v ++ (renderObjTail kvs ++ '}' :: rest)) from rfl]
          rw [readVal_ws f _ (by decide)]
          apply ih1
          · intro c hc
            cases kvs with
            | nil =>
                simp only [renderObjTail, List.nil_append, List.head?_cons] at hc
                injection hc with hc
                rw [← hc]
                exact ⟨by decide, by decide, by decide, by decide⟩
            | cons kv2 kvs2 =>
                rw [show renderObjTail (kv2 :: kvs2) = ',' :: ' ' :: renderStr kv2.1
                  ++ ':' :: ' ' :: render kv2.2 ++ renderObjTail kvs2 from by
                    simp [renderObjTail]] at hc
                simp only [List.cons_append, List.head?_cons] at hc
                injection hc with hc
                rw [← hc]
                exact ⟨by decide, by decide, by decide, by decide⟩
          · simp at hlen ⊢
            omega
        rw [hv]
        dsimp only
        cases kvs with
        | nil =>
            rw [show (renderObjTail [] ++ '}' :: rest : List Char) = '}' :: rest from by
              simp [renderObjTail]]
            rw [skipJsWs_cons_not _ (by decide)]
            rw [show (('}' :: rest).head? == some ',') = false from rfl]
            simp only [Bool.false_eq_true, if_false]
            rw [show (('}' :: rest).head? == some '}') = true from rfl]
            rfl
        | cons kv2 kvs2 =>
            rw [show renderObjTail (kv2 :: kvs2) = ',' :: ' ' :: renderStr kv2.1
              ++ ':' :: ' ' :: render kv2.2 ++ renderObjTail kvs2 from by
                simp [renderObjTail]]
            rw [show ((',' :: ' ' :: renderStr kv2.1 ++ ':' :: ' ' :: render kv2.2
                ++ renderObjTail kvs2) ++ '}' :: rest : List Char)
              = ',' :: (' ' :: (renderStr kv2.1 ++ ':' :: ' ' :: (render kv2.2
                  ++ (renderObjTail kvs2 ++ '}' :: rest)))) from by simp]
            rw [skipJsWs_cons_not _ (by decide)]
            rw [show ((',' :: (' ' :: (renderStr kv2.1 ++ ':' :: ' ' :: (render kv2.2
              ++ (renderObjTail kvs2 ++ '}' :: rest))))).head? == some ',') = true from rfl]
            simp only [if_true, List.tail_cons]
            have hi := ih3 [' '] kv2.1 kv2.2 kvs2 rest (by decide) hrest (by
              rw [show renderObjTail (kv2 :: kvs2) = ',' :: ' ' :: renderStr kv2.1
                ++ ':' :: ' ' :: render kv2.2 ++ renderObjTail kvs2 from by
                  simp [renderObjTail]] at hlen
              simp [List.length_append] at hlen ⊢
              omega)
            rw [show ([' '] ++ (renderStr kv2.1 ++ ':' :: ' ' :: (render kv2.2
              ++ (renderObjTail kvs2 ++ '}' :: rest))) : List Char)
              = ' ' :: (renderStr kv2.1 ++ ':' :: ' ' :: (render kv2.2
                ++ (renderObjTail kvs2 ++ '}' :: rest))) from rfl] at hi
            rw [hi]

theorem loads_render (v : JValue) : loads (render v ++ ['\n']) = some v := by
  unfold loads
  have h := (roundtripAux ((render v ++ ['\n']).length + 1)).1 v ['\n']
    (by
      intro c hc
      injection hc with hc
      rw [← hc]
      exact ⟨by decide, by decide, by decide, by decide⟩)
    (by
      simp only [List.length_append, List.length_cons, List.length_nil]
      omega)
  rw [h]
  rfl

theorem subFenceF_cons (f : Nat) (c : Char) (r : List Char) :
    subFenceF (f + 1) (c :: r) =
      if c == '`' && r.head? == some '`' && r.tail.head? == some '`' then
        subFenceF f (dropNl (dropJsonTag r.tail.tail))
      else c :: subFenceF f r := rfl

theorem subFenceF_clean : ∀ (l : List Char) (fuel : Nat),
    l.length + 4 ≤ fuel → hasTriple l = false →
    subFenceF fuel (l ++ '\n' :: '`' :: '`' :: '`' :: []) = l ++ ['\n'] := by
  intro l
  induction l with
  | nil =>
      intro fuel hf ht
      obtain ⟨f, rfl⟩ : ∃ f, fuel = f + 1 := ⟨fuel - 1, by omega⟩
      show subFenceF (f + 1) ('\n' :: '`' :: '`' :: '`' :: []) = ['\n']
      rw [subFenceF_cons, if_neg (by decide)]
      obtain ⟨f2, rfl⟩ : ∃ f2, f = f2 + 1 := ⟨f - 1, by omega⟩
      rw [subFenceF_cons, if_pos (by decide)]
      exact congrArg (fun x => '\n' :: x) (subFenceF_nil f2)
  | cons c cs ih =>
      intro fuel hf ht
      obtain ⟨hcs, hpre⟩ := hasTriple_cons ht
      obtain ⟨f, rfl⟩ : ∃ f, fuel = f + 1 := ⟨fuel - 1, by omega⟩
      rw [List.cons_append, subFenceF_cons]
      have hcond : (c == '`' && ((cs ++ '\n' :: '`' :: '`' :: '`' :: []).head? == some '`')
          && ((cs ++ '\n' :: '`' :: '`' :: '`' :: []).tail.head? == some '`')) = false := by
        cases hc : (c == '`') with
        | false => simp
        | true =>
            obtain rfl : c = '`' := by simpa using hc
            cases cs with
            | nil => decide
            | cons c2 cs2 =>
                cases hc2 : (c2 == '`') with
                | false =>
                    have h2 : (((c2 :: cs2 : List Char)
                        ++ ('\n' :: '`' :: '`' :: '`' :: [])).head? == some '`')
                        = (c2 == '`') := rfl
                    rw [h2, hc2]
                    simp
                | true =>
                    obtain rfl : c2 = '`' := by simpa using hc2
                    cases cs2 with
                    | nil => decide
                    | cons c3 cs3 =>
                        cases hc3 : (c3 == '`') with
                        | false =>
                            have h3 : ((((('`' : Char) :: c3 :: cs3)
                                ++ ('\n' :: '`' :: '`' :: '`' :: [])).tail.head? == some '`')
                                = (c3 == '`')) := rfl
                            rw [h3, hc3]
                            simp
                        | true =>
                            obtain rfl : c3 = '`' := by simpa using hc3
                            exfalso
                            simp [prefixB] at hpre
      rw [hcond]
      simp only [Bool.false_eq_true, if_false]
      rw [ih f (by simp only [List.length_cons] at hf; omega) hcs]
      simp

theorem subFenceF_fence (f : Nat) (body : List Char) :
    subFenceF (f + 1) ('`' :: '`' :: '`' :: 'j' :: 's' :: 'o' :: 'n' :: '\n' :: body)
      = subFenceF f body := rfl

theorem dropLeading_cons_false {p : Char → Bool} {c : Char} (l : List Char)
    (h : p c = false) : dropLeading p (c :: l) = c :: l := by
  unfold dropLeading
  rw [h]
  simp

theorem parse_fenced (v : JValue) (ht : hasTriple (render v) = false) :
    parse_json_response ("```json\n" ++ dumps v ++ "\n```") = some v := by
  unfold parse_json_response
  dsimp only
  have htl : ("```json\n" ++ dumps v ++ "\n```").toList
      = '`' :: '`' :: '`' :: 'j' :: 's' :: 'o' :: 'n' :: '\n'
        :: (render v ++ ('\n' :: '`' :: '`' :: '`' :: [])) := rfl
  rw [htl]
  have hsplit : ('`' :: '`' :: '`' :: 'j' :: 's' :: 'o' :: 'n' :: '\n'
      :: (render v ++ ('\n' :: '`' :: '`' :: '`' :: [])) : List Char)
      = ('`' :: '`' :: '`' :: 'j' :: 's' :: 'o' :: 'n' :: '\n'
        :: (render v ++ ('\n' :: '`' :: '`' :: []))) ++ ['`'] := by
    simp
  have hstrip : pyStripL ('`' :: '`' :: '`' :: 'j' :: 's' :: 'o' :: 'n' :: '\n'
      :: (render v ++ ('\n' :: '`' :: '`' :: '`' :: [])))
      = '`' :: '`' :: '`' :: 'j' :: 's' :: 'o' :: 'n' :: '\n'
        :: (render v ++ ('\n' :: '`' :: '`' :: '`' :: [])) := by
    unfold pyStripL
    rw [dropLeading_cons_false _ (by decide)]
    rw [hsplit, dropTrailing_append_last _ (by decide)]
  rw [hstrip]
  rw [show fenceAt ('`' :: '`' :: '`' :: 'j' :: 's' :: 'o' :: 'n' :: '\n'
    :: (render v ++ ('\n' :: '`' :: '`' :: '`' :: []))) = true from rfl]
  simp only [if_true]
  unfold subFence
  obtain ⟨f, hf, hfge⟩ : ∃ f, ('`' :: '`' :: '`' :: 'j' :: 's' :: 'o' :: 'n' :: '\n'
      :: (render v ++ ('\n' :: '`' :: '`' :: '`' :: []))).length = f + 1
      ∧ (render v).length + 4 ≤ f := by
    refine ⟨('`' :: '`' :: '`' :: 'j' :: 's' :: 'o' :: 'n' :: '\n'
      :: (render v ++ ('\n' :: '`' :: '`' :: '`' :: []))).length - 1, by simp, by simp⟩
  rw [hf, subFenceF_fence, subFenceF_clean (render v) f hfge ht]
  unfold rstripBackticks
  rw [dropTrailing_append_last _ (by decide)]
  exact loads_render v

/-- C7: corrected.  The round trip through the fence only holds for values
whose rendering contains no triple-backtick run (the fence stripper deletes
every such run, with an optional tag and newline, anywhere in the payload);
under that proviso `parse_json_response` inverts the fenced `json.dumps`
rendering, and on every input it returns `some`/`none` without failing. -/
theorem claim_C7 :
    (∀ v : JValue, hasTriple (render v) = false →
        parse_json_response ("```json\n" ++ dumps v ++ "\n```") = some v) ∧
    (∀ s : String, parse_json_response s = none ∨ ∃ v, parse_json_response s = some v) := by
  constructor
  · exact fun v h => parse_fenced v h
  · intro s
    cases h : parse_json_response s with
    | none => exact Or.inl rfl
    | some v => exact Or.inr ⟨v, rfl⟩

set_option maxRecDepth 20000 in
/-- C7 witness: a composite object round-trips through the fenced rendering. -/
theorem claim_C7_witness :
    hasTriple (render (JValue.jobj [("a", JValue.jarr
      [JValue.jnum (-15) 1, JValue.jstr "x y", JValue.jbool true, JValue.jnull])])) = false
    ∧ parse_json_response ("```json\n" ++ dumps (JValue.jobj [("a", JValue.jarr
        [JValue.jnum (-15) 1, JValue.jstr "x y", JValue.jbool true, JValue.jnull])]) ++ "\n```")
      = some (JValue.jobj [("a", JValue.jarr
        [JValue.jnum (-15) 1, JValue.jstr "x y", JValue.jbool true, JValue.jnull])]) := by
  have hr : render (JValue.jobj [("a", JValue.jarr
      [JValue.jnum (-15) 1, JValue.jstr "x y", JValue.jbool true, JValue.jnull])])
      = "\x7b\"a\": [-1.5, \"x y\", true, null]\x7d".toList := by
    simp only [render, renderArrTail, renderObjTail]
    rfl
  have ht : hasTriple (render (JValue.jobj [("a", JValue.jarr
      [JValue.jnum (-15) 1, JValue.jstr "x y", JValue.jbool true, JValue.jnull])])) = false := by
    rw [hr]
    rfl
  exact ⟨ht, claim_C7.1 _ ht⟩

set_option maxRecDepth 20000 in
/-- C7 counterexample: the string value made of three backticks renders to the
five-character payload `"``(backtick)"`, but the fence stripper deletes the
backtick run inside the payload, so the round trip returns the empty string
value instead of the original. -/
theorem claim_C7_counterexample :
    parse_json_response ("```json\n" ++ dumps (JValue.jstr "```") ++ "\n```")
      = some (JValue.jstr "")
    ∧ JValue.jstr "" ≠ JValue.jstr "```" := by
  have hd : dumps (JValue.jstr "```") = "\"```\"" := by
    simp only [dumps, render]
    rfl
  constructor
  · rw [hd]
    rfl
  · intro h
    injection h with h
    exact absurd h (by decide)

end RFP

